import Mathlib

/-!
qrmaker: a shallow embedding of `main.go` (`resizeImage`, `generateOverlayQR`, `main`)
and the properties proved about it.

Conventions of the embedding.
* Go's `int` is the 64-bit two's-complement integer. A value is an `Int`; an
  operation on `int` in `resizeImage` (`x * srcWidth`, `bounds.Min.X + srcX`,
  `bounds.Dx()`) is followed by `wrapInt`, which reduces the exact result into
  `[minInt, maxInt]`; `/` truncates toward zero and panics on a zero divisor.
* In `generateOverlayQR` the arithmetic of lines 148-164 is exact on the clamped
  values: `qrc.Image(qrSize)` on line 133 has rendered a symbol of `qrSize` by
  `qrSize` pixels before `qrSize * overlaySizePct` is formed.
* `image.NewRGBA` panics for a rectangle whose buffer length `4 * Dx * Dy` is
  negative or does not fit `int`, and its `make` fails when the runtime cannot
  allocate the buffer; `mem` is the number of bytes the runtime can allocate for
  one pixel buffer.
* The pieces of the Go standard library that `main.go` calls on images
  (`image.Rect`, `image.NewRGBA`, `(*image.RGBA).Set` and `At`, `color.RGBAModel`)
  are written out; the two encoders, the file system, the clock, the image
  decoder, the PNG encoder and `draw.Draw` are parameters (`Overlay`, `World`).
* An `*image.RGBA` is its rectangle and a pixel per point; the byte layout of
  `Pix` is not modelled.
-/

namespace QRMaker

/-! ## Integers -/

/-- The least value of `int`, `-2^63`. -/
def minInt : Int := -9223372036854775808

/-- The greatest value of `int`, `2^63 - 1`. -/
def maxInt : Int := 9223372036854775807

/-- Whether an integer is a value of `int`. -/
def isInt (v : Int) : Prop := minInt ≤ v ∧ v ≤ maxInt

instance (v : Int) : Decidable (isInt v) :=
  inferInstanceAs (Decidable (minInt ≤ v ∧ v ≤ maxInt))

/-- The value that 64-bit two's-complement arithmetic keeps of an exact result. -/
def wrapInt (v : Int) : Int :=
  (v + 9223372036854775808) % 18446744073709551616 - 9223372036854775808

/-- Go's `a + b` on `int`. -/
def intAdd (a b : Int) : Int := wrapInt (a + b)

/-- Go's `a - b` on `int`. -/
def intSub (a b : Int) : Int := wrapInt (a - b)

/-- Go's `a * b` on `int`. -/
def intMul (a b : Int) : Int := wrapInt (a * b)

/-- The message of the run-time panic raised by a zero divisor. -/
def divideByZero : String := "panic: runtime error: integer divide by zero"

/-- Go's `a / b` on `int`: a panic when `b` is zero, the quotient truncated
toward zero otherwise (`minInt / -1` wraps to `minInt`). -/
def intDiv (a b : Int) : Except String Int :=
  if b = 0 then .error divideByZero else .ok (wrapInt (a.tdiv b))

/-! ## `image` geometry -/

/-- Go's `image.Point`. -/
structure Point where
  X : Int
  Y : Int
deriving DecidableEq, Repr

/-- Go's `image.Rectangle`: the points with `Min.X ≤ x < Max.X`, `Min.Y ≤ y < Max.Y`. -/
structure Rectangle where
  Min : Point
  Max : Point
deriving DecidableEq, Repr

/-- `Rectangle.Dx`: the width, `r.Max.X - r.Min.X` on `int`. -/
def Rectangle.Dx (r : Rectangle) : Int := intSub r.Max.X r.Min.X

/-- `Rectangle.Dy`: the height, `r.Max.Y - r.Min.Y` on `int`. -/
def Rectangle.Dy (r : Rectangle) : Int := intSub r.Max.Y r.Min.Y

/-- `Rectangle.Empty`: whether the rectangle contains no point. -/
def Rectangle.Empty (r : Rectangle) : Bool :=
  decide (r.Min.X ≥ r.Max.X) || decide (r.Min.Y ≥ r.Max.Y)

/-- `Point.In`: whether the point lies in the rectangle. -/
def Point.In (p : Point) (r : Rectangle) : Bool :=
  decide (r.Min.X ≤ p.X) && decide (p.X < r.Max.X) &&
    decide (r.Min.Y ≤ p.Y) && decide (p.Y < r.Max.Y)

/-- `image.Rect(x0, y0, x1, y1)`: the rectangle with these corners, the
coordinates swapped where needed so that it is well-formed. -/
def Rect (x0 y0 x1 y1 : Int) : Rectangle :=
  let (x0, x1) := if x0 > x1 then (x1, x0) else (x0, x1)
  let (y0, y1) := if y0 > y1 then (y1, y0) else (y0, y1)
  ⟨⟨x0, y0⟩, ⟨x1, y1⟩⟩

/-- A rectangle of Go: the four coordinates are values of `int` and it is
well-formed, `Min.X ≤ Max.X` and `Min.Y ≤ Max.Y`. -/
def Rectangle.WellFormed (r : Rectangle) : Prop :=
  (isInt r.Min.X ∧ isInt r.Max.X ∧ r.Min.X ≤ r.Max.X) ∧
    (isInt r.Min.Y ∧ isInt r.Max.Y ∧ r.Min.Y ≤ r.Max.Y)

instance (r : Rectangle) : Decidable r.WellFormed :=
  inferInstanceAs (Decidable ((isInt r.Min.X ∧ isInt r.Max.X ∧ r.Min.X ≤ r.Max.X) ∧
    (isInt r.Min.Y ∧ isInt r.Max.Y ∧ r.Min.Y ≤ r.Max.Y)))

/-! ## `image/color` -/

/-- Go's `color.RGBA`: 8-bit alpha-premultiplied channels. -/
structure RGBA where
  R : Nat
  G : Nat
  B : Nat
  A : Nat
deriving DecidableEq, Repr

/-- Go's `color.NRGBA`: 8-bit channels, not premultiplied (what a PNG with an
alpha channel decodes to). -/
structure NRGBA where
  R : Nat
  G : Nat
  B : Nat
  A : Nat
deriving DecidableEq, Repr

/-- Go's `color.RGBA64`: 16-bit alpha-premultiplied channels. Every other
`color.Color` is seen by `Set` only through its `RGBA()` method, that is, as the
`RGBA64` value with the same four results. -/
structure RGBA64 where
  R : Nat
  G : Nat
  B : Nat
  A : Nat
deriving DecidableEq, Repr

/-- The values of the `color.Color` interface that `img.At` may return. -/
inductive Color where
  | rgba (c : RGBA)
  | nrgba (c : NRGBA)
  | rgba64 (c : RGBA64)
deriving DecidableEq, Repr

/-- One channel of `color.NRGBA.RGBA()`: `r |= r << 8; r *= a; r /= 0xff`. -/
def premultiply (v a : Nat) : Nat := (v ||| (v <<< 8)) * a / 0xff

/-- The `RGBA()` method of `color.Color`: the alpha-premultiplied channels on 16
bits. -/
def Color.channels : Color → Nat × Nat × Nat × Nat
  | .rgba c => (c.R ||| (c.R <<< 8), c.G ||| (c.G <<< 8), c.B ||| (c.B <<< 8), c.A ||| (c.A <<< 8))
  | .nrgba c => (premultiply c.R c.A, premultiply c.G c.A, premultiply c.B c.A, c.A ||| (c.A <<< 8))
  | .rgba64 c => (c.R, c.G, c.B, c.A)

/-- The conversion `uint8(v >> 8)`. -/
def highByte (v : Nat) : Nat := (v >>> 8) % 256

/-- Go's `color.RGBAModel.Convert`: a `color.RGBA` is returned as it is, any other
colour becomes the high bytes of its `RGBA()` channels. -/
def rgbaModel : Color → RGBA
  | .rgba c => c
  | c =>
    let (r, g, b, a) := c.channels
    ⟨highByte r, highByte g, highByte b, highByte a⟩

/-! ## Images -/

/-- Go's `image.Image` interface: `Bounds` and `At` (the colour model is not used
by `main.go`). -/
structure Image where
  Bounds : Rectangle
  At : Int → Int → Color

/-- Go's `*image.RGBA`: a rectangle and one `color.RGBA` per point of it. -/
structure RGBAImage where
  Rect : Rectangle
  Pix : Int → Int → RGBA

/-- The function `mul3NonNeg(x, y, z)` of package `image`: the product, or `-1` when
an argument is negative or a step of the product does not fit (`bits.Mul64` with a
non-zero high word, or a result that is negative as an `int`). -/
def mul3NonNeg (x y z : Int) : Int :=
  if x < 0 ∨ y < 0 ∨ z < 0 then -1
  else if x * y ≥ 18446744073709551616 then -1
  else if x * y * z ≥ 18446744073709551616 then -1
  else if x * y * z > maxInt then -1
  else x * y * z

/-- The message of the panic of `pixelBufferLength` for `image.NewRGBA`. -/
def hugeOrNegative : String := "image: NewRGBA Rectangle has huge or negative dimensions"

/-- The failure of `make` for a buffer that the runtime cannot allocate. -/
def outOfMemory : String := "runtime: cannot allocate the pixel buffer"

/-- The function `pixelBufferLength(bytesPerPixel, r, "RGBA")` of package `image`. -/
def pixelBufferLength (bytesPerPixel : Int) (r : Rectangle) : Except String Int :=
  let totalLength := mul3NonNeg bytesPerPixel r.Dx r.Dy
  if totalLength < 0 then .error hugeOrNegative else .ok totalLength

/-- The image with rectangle `r` whose every pixel is the zero colour. -/
def blank (r : Rectangle) : RGBAImage := ⟨r, fun _ _ => ⟨0, 0, 0, 0⟩⟩

/-- `image.NewRGBA(r)` where the runtime can allocate `mem` bytes: a panic of
`pixelBufferLength`, a failure of `make`, or the image with every pixel zero. -/
def NewRGBA (mem : Int) (r : Rectangle) : Except String RGBAImage := do
  let n ← pixelBufferLength 4 r
  if n > mem then .error outOfMemory else pure (blank r)

/-- `(*image.RGBA).Bounds`. -/
def RGBAImage.Bounds (p : RGBAImage) : Rectangle := p.Rect

/-- `(*image.RGBA).At`: the stored pixel, the zero colour outside the rectangle. -/
def RGBAImage.At (p : RGBAImage) (x y : Int) : Color :=
  if (Point.mk x y).In p.Rect then .rgba (p.Pix x y) else .rgba ⟨0, 0, 0, 0⟩

/-- `(*image.RGBA).Set`: nothing outside the rectangle, otherwise the pixel becomes
`color.RGBAModel.Convert(c)`. -/
def RGBAImage.Set (p : RGBAImage) (x y : Int) (c : Color) : RGBAImage :=
  if (Point.mk x y).In p.Rect then
    { p with Pix := fun x1 y1 => if x1 = x ∧ y1 = y then rgbaModel c else p.Pix x1 y1 }
  else p

/-- An `*image.RGBA` seen through the `image.Image` interface. -/
def RGBAImage.toImage (p : RGBAImage) : Image := ⟨p.Rect, p.At⟩

/-! ## `resizeImage` -/

/-- The body of the inner loop of `resizeImage` at destination `(x, y)`. -/
def resizePixel (img : Image) (width height : Int) (y : Nat) (result : RGBAImage) (x : Nat) :
    Except String RGBAImage := do
  let bounds := img.Bounds
  let srcWidth := bounds.Dx
  let srcHeight := bounds.Dy
  let srcX ← intDiv (intMul (x : Int) srcWidth) width
  let srcY ← intDiv (intMul (y : Int) srcHeight) height
  pure (result.Set x y (img.At (intAdd bounds.Min.X srcX) (intAdd bounds.Min.Y srcY)))

/-- The body of the outer loop: `for x := 0; x < width; x++`. -/
def resizeRow (img : Image) (width height : Int) (result : RGBAImage) (y : Nat) :
    Except String RGBAImage :=
  (List.range width.toNat).foldlM (resizePixel img width height y) result

/-- The function `resizeImage(img, width, height)` of `main.go`, where the runtime
can allocate `mem` bytes for the result. -/
def resizeImage (mem : Int) (img : Image) (width height : Int) : Except String RGBAImage := do
  let result ← NewRGBA mem (Rect 0 0 width height)
  (List.range height.toNat).foldlM (resizeRow img width height) result

/-- The targets for which `image.NewRGBA` returns in `resizeImage`: `width` and
`height` are values of `int` and not negative, `4 * width` fits 64 bits, and the
buffer length `4 * width * height` fits `int` and the memory. -/
def targetFits (mem width height : Int) : Prop :=
  (0 ≤ width ∧ width < 4611686018427387904) ∧ (0 ≤ height ∧ height ≤ maxInt) ∧
    4 * width * height ≤ maxInt ∧ 4 * width * height ≤ mem

instance (mem width height : Int) : Decidable (targetFits mem width height) :=
  inferInstanceAs (Decidable ((0 ≤ width ∧ width < 4611686018427387904) ∧
    (0 ≤ height ∧ height ≤ maxInt) ∧ 4 * width * height ≤ maxInt ∧ 4 * width * height ≤ mem))

/-! ## `generateOverlayQR` -/

/-- A byte slice; the bytes are `uint8` values. -/
abbrev Bytes := List Nat

/-- The compositing operators of `image/draw`. -/
inductive Op where
  | Over
  | Src
deriving DecidableEq, Repr

/-- The collaborators of the overlay pipeline. `QRCode` is the type of the value
that `qrcode.New` returns. -/
structure Overlay (QRCode : Type) where
  /-- The call `qrcode.New(url, qrcode.Highest)`. -/
  New : String → Except String QRCode
  /-- The call `qrc.Image(size)`. -/
  Image : QRCode → Int → QRMaker.Image
  /-- The call `os.Open(imagePath)`, giving the content of the file. -/
  Open : String → Except String Bytes
  /-- The call `image.Decode(overlayFile)`. -/
  Decode : Bytes → Except String QRMaker.Image
  /-- The pixels of `dst` after `draw.Draw(dst, r, src, sp, op)`; `draw.Draw` writes
  pixels of `dst` and leaves its rectangle alone. -/
  Draw : RGBAImage → Rectangle → QRMaker.Image → Point → Op → Int → Int → RGBA
  /-- The call `png.Encode(&buf, result)`, giving `buf.Bytes()`. -/
  Encode : RGBAImage → Except String Bytes
  /-- The number of bytes that the runtime can allocate for one pixel buffer. -/
  Mem : Int

/-- The call `draw.Draw(dst, r, src, sp, op)` on an `*image.RGBA`. -/
def Overlay.drawOn {Q : Type} (env : Overlay Q) (dst : RGBAImage) (r : Rectangle)
    (src : QRMaker.Image) (sp : Point) (op : Op) : RGBAImage :=
  { dst with Pix := env.Draw dst r src sp op }

/-- The error `fmt.Errorf(msg + ": %w", err)` in place of `err`. -/
def wrapError {α : Type} (msg : String) : Except String α → Except String α
  | .ok a => .ok a
  | .error err => .error (msg ++ ": " ++ err)

/-- Lines 116-121: the overlay percentage kept in `[10, 40]`. -/
def clampOverlaySizePct (overlaySizePct : Int) : Int :=
  let overlaySizePct := if overlaySizePct < 10 then 10 else overlaySizePct
  if overlaySizePct > 40 then 40 else overlaySizePct

/-- Lines 124-126: the output size raised to 128. -/
def clampQrSize (qrSize : Int) : Int :=
  if qrSize < 128 then 128 else qrSize

/-- Lines 148-149: `qrSize * overlaySizePct / 100`, the value of both `overlayWidth`
and `overlayHeight`. -/
def overlaySide (qrSize overlaySizePct : Int) : Int :=
  (qrSize * overlaySizePct).tdiv 100

/-- Lines 160-161: `(qrSize - overlayWidth) / 2`, the value of both `offsetX` and
`offsetY`. -/
def overlayOffset (qrSize overlaySide : Int) : Int :=
  (qrSize - overlaySide).tdiv 2

/-- Lines 148-164: the rectangle `overlayRect`, from the clamped `qrSize` and
`overlaySizePct`. -/
def overlayRect (qrSize overlaySizePct : Int) : Rectangle :=
  let overlayWidth := overlaySide qrSize overlaySizePct
  let overlayHeight := overlaySide qrSize overlaySizePct
  let offsetX := overlayOffset qrSize overlayWidth
  let offsetY := overlayOffset qrSize overlayHeight
  Rect offsetX offsetY (offsetX + overlayWidth) (offsetY + overlayHeight)

/-- Lines 115-165 of `generateOverlayQR`: the raster `result` that is handed to the
PNG encoder. A panic of `resizeImage` or of `image.NewRGBA` is an error of the same
monad. -/
def overlayRaster {Q : Type} (env : Overlay Q) (url imagePath : String)
    (qrSize overlaySizePct : Int) : Except String RGBAImage := do
  let overlaySizePct := clampOverlaySizePct overlaySizePct
  let qrSize := clampQrSize qrSize
  let qrc ← wrapError "creating QR code" (env.New url)
  let qrImg := env.Image qrc qrSize
  let overlayFile ← wrapError "opening overlay image" (env.Open imagePath)
  let overlayImg ← wrapError "decoding overlay image" (env.Decode overlayFile)
  let overlayWidth := overlaySide qrSize overlaySizePct
  let overlayHeight := overlaySide qrSize overlaySizePct
  let resizedOverlay ← resizeImage env.Mem overlayImg overlayWidth overlayHeight
  let bounds := qrImg.Bounds
  let result ← NewRGBA env.Mem bounds
  let result := env.drawOn result bounds qrImg ⟨0, 0⟩ .Src
  let result := env.drawOn result (overlayRect qrSize overlaySizePct) resizedOverlay.toImage
    ⟨0, 0⟩ .Over
  pure result

/-- The function `generateOverlayQR(url, imagePath, qrSize, overlaySizePct)` of
`main.go`. -/
def generateOverlayQR {Q : Type} (env : Overlay Q) (url imagePath : String)
    (qrSize overlaySizePct : Int) : Except String Bytes := do
  let result ← overlayRaster env url imagePath qrSize overlaySizePct
  wrapError "encoding PNG" (env.Encode result)

/-! ## `main` -/

/-- The values of the command-line flags after `flag.Parse()`. -/
structure Flags where
  imagePath : String
  url : String
  output : String
  version : Int
  scale : Int
  mask : Int
  dx : Int
  dy : Int
  randControl : Bool
  dither : Bool
  onlyData : Bool
  saveControl : Bool
  seed : Int
  overlay : Bool
  overlaySize : Int
  size : Int

/-- What `main` runs in. `Q` is the type of the value that `qrcode.New` returns. -/
structure World (Q : Type) where
  /-- The collaborators of `generateOverlayQR`. -/
  overlay : Overlay Q
  /-- The call `os.ReadFile(path)`. -/
  ReadFile : String → Except String Bytes
  /-- The value of `time.Now().UnixNano()`. -/
  Now : Int
  /-- The call `qart.Encode(url, imgData, seed, version, scale, mask, dx, dy, rand,
  dither, onlyData, saveControl)`; `none` is the `nil` slice, `some []` an empty
  slice that is not `nil`. -/
  Encode : String → Bytes → Int → Int → Int → Int → Int → Int → Bool → Bool → Bool → Bool →
    Option Bytes
  /-- The call `os.WriteFile(path, data, 0644)`. -/
  WriteFile : String → Bytes → Except String Unit
  /-- What `flag.PrintDefaults()` prints. -/
  PrintDefaults : List String

/-- What one run of `main` does: the text printed on the two streams, the files
passed to `os.WriteFile`, and the exit status. -/
structure Run where
  stdout : List String
  stderr : List String
  written : List (String × Bytes)
  exit : Int
deriving DecidableEq, Repr

/-- The lines of `printHelp`, before `flag.PrintDefaults()`. -/
def printHelp : List String :=
  ["QR Code Art Generator\n", "=====================\n", "\n",
   "Creates QR codes with embedded or overlaid images.\n", "\n",
   "Usage: qrmaker -image <path> [options]\n", "\n",
   "Modes:\n",
   "  Embed (default): Image pattern is encoded into QR data bits\n",
   "  Overlay (-overlay): Image is placed on top of QR code center\n", "\n",
   "Examples:\n",
   "  # Embed mode (artistic QR)\n",
   "  qrmaker -image photo.png -url 'https://mysite.com'\n",
   "  qrmaker -image photo.png -url 'https://mysite.com' -dither -version 8\n", "\n",
   "  # Overlay mode (logo in center)\n",
   "  qrmaker -overlay -image logo.png -url 'https://mysite.com'\n",
   "  qrmaker -overlay -image logo.png -url 'https://mysite.com' -size 1024\n",
   "  qrmaker -overlay -image logo.png -url 'https://mysite.com' -size 1024 -overlay-size 30\n",
   "\n",
   "Styling Tips:\n",
   "  - Embed: Use -dither for photos, higher -version for longer URLs\n",
   "  - Overlay: Keep -overlay-size under 30% for reliable scanning\n", "\n",
   "Options:\n"]

/-- Lines 69-72: the seed handed to `qart.Encode`. -/
def seedVal (seed now : Int) : Int :=
  if seed = 0 then now else seed

/-- Lines 107-111: the output is saved, after `printed` went to the standard output. -/
def saveOutput {Q : Type} (w : World Q) (f : Flags) (printed : List String) (qrData : Bytes) :
    Run :=
  match w.WriteFile f.output qrData with
  | .error err =>
    { stdout := printed, stderr := ["Error writing output file: " ++ err ++ "\n"],
      written := [(f.output, qrData)], exit := 1 }
  | .ok _ => { stdout := printed, stderr := [], written := [(f.output, qrData)], exit := 0 }

/-- The function `main` of `main.go`. -/
def main {Q : Type} (w : World Q) (f : Flags) : Run :=
  if f.imagePath = "" then
    { stdout := printHelp, stderr := w.PrintDefaults, written := [], exit := 0 }
  else if f.overlay then
    match generateOverlayQR w.overlay f.url f.imagePath f.size f.overlaySize with
    | .error err =>
      { stdout := [], stderr := ["Error generating overlay QR: " ++ err ++ "\n"],
        written := [], exit := 1 }
    | .ok qrData =>
      saveOutput w f
        ["QR code generated: " ++ f.output ++ "\n", "  URL: " ++ f.url ++ "\n",
         "  Mode: overlay, Size: " ++ toString f.size ++ "x" ++ toString f.size ++ ", Logo: " ++
           toString f.overlaySize ++ "%\n"] qrData
  else
    match w.ReadFile f.imagePath with
    | .error err =>
      { stdout := [], stderr := ["Error reading image: " ++ err ++ "\n"], written := [],
        exit := 1 }
    | .ok imgData =>
      match w.Encode f.url imgData (seedVal f.seed w.Now) f.version f.scale f.mask f.dx f.dy
          f.randControl f.dither f.onlyData f.saveControl with
      | none =>
        { stdout := [],
          stderr := ["Error: failed to generate QR code\n",
                     "Tip: Try a higher version (-version 7 or 8) for longer URLs\n"],
          written := [], exit := 1 }
      | some qrData =>
        saveOutput w f
          (["QR code generated: " ++ f.output ++ "\n", "  URL: " ++ f.url ++ "\n",
            "  Mode: embed, Version: " ++ toString f.version ++ ", Scale: " ++
              toString f.scale ++ "\n"] ++
            (if f.dither then ["  Dithering: enabled\n"] else []) ++
            (if f.randControl then ["  Random control: enabled\n"] else []))
          qrData

/-- The source colour that `resizeImage` reads for the destination `(x, y)`, as the
code computes it on `int`. -/
def sampled (img : Image) (width height x y : Int) : Color :=
  img.At (intAdd img.Bounds.Min.X (wrapInt ((intMul x img.Bounds.Dx).tdiv width)))
    (intAdd img.Bounds.Min.Y (wrapInt ((intMul y img.Bounds.Dy).tdiv height)))

/-! ## Sample images -/

/-- The pixel at `(x, y)` of the image that a call returned. -/
def pixelOf (e : Except String RGBAImage) (x y : Int) : Option Color :=
  match e with
  | .ok r => some (r.At x y)
  | .error _ => none

/-- The rectangle of the image that a call returned. -/
def boundsOf (e : Except String RGBAImage) : Option Rectangle :=
  match e with
  | .ok r => some r.Bounds
  | .error _ => none

/-- A 1x1 `*image.NRGBA`, as decoded from a PNG with an alpha channel: one
half-transparent red pixel. -/
def translucentLogo : Image :=
  ⟨⟨⟨0, 0⟩, ⟨1, 1⟩⟩, fun x y => if x = 0 ∧ y = 0 then .nrgba ⟨100, 0, 0, 100⟩ else .nrgba ⟨0, 0, 0, 0⟩⟩

/-- A 1x1 `*image.RGBA64`, as decoded from a 16-bit PNG: one opaque pixel. -/
def deepLogo : Image :=
  ⟨⟨⟨0, 0⟩, ⟨1, 1⟩⟩,
    fun x y => if x = 0 ∧ y = 0 then .rgba64 ⟨0x1234, 0x5678, 0x9abc, 0xffff⟩ else .rgba64 ⟨0, 0, 0, 0⟩⟩

/-- A 2x1 `*image.RGBA` whose rectangle starts at `(3, 5)`. -/
def solidLogo : Image :=
  ⟨⟨⟨3, 5⟩, ⟨5, 6⟩⟩,
    fun x y =>
      if x = 3 ∧ y = 5 then .rgba ⟨10, 20, 30, 255⟩
      else if x = 4 ∧ y = 5 then .rgba ⟨1, 2, 3, 255⟩
      else .rgba ⟨0, 0, 0, 0⟩⟩

/-- A source of width `2^62` and height 1 that is not held in memory: the colour
`RGBA{1, 2, 3, 255}` inside its rectangle and `RGBA{9, 9, 9, 255}` outside. -/
def wideSource : Image :=
  ⟨⟨⟨0, 0⟩, ⟨4611686018427387904, 1⟩⟩,
    fun x y =>
      if 0 ≤ x ∧ x < 4611686018427387904 ∧ y = 0 then .rgba ⟨1, 2, 3, 255⟩
      else .rgba ⟨9, 9, 9, 255⟩⟩

/-- A source of width `2^32` and height 1 that is not held in memory: the colour
`RGBA{1, 2, 3, 255}` inside its rectangle and `RGBA{9, 9, 9, 255}` outside. -/
def longRow : Image :=
  ⟨⟨⟨0, 0⟩, ⟨4294967296, 1⟩⟩,
    fun x y =>
      if 0 ≤ x ∧ x < 4294967296 ∧ y = 0 then .rgba ⟨1, 2, 3, 255⟩
      else .rgba ⟨9, 9, 9, 255⟩⟩

/-- A source with the rectangle of an `image.Uniform`, `(-1e9, -1e9)-(1e9, 1e9)`,
and one colour. -/
def uniformSource : Image :=
  ⟨⟨⟨-1000000000, -1000000000⟩, ⟨1000000000, 1000000000⟩⟩, fun _ _ => .rgba ⟨1, 2, 3, 255⟩⟩

/-! ## A sample world -/

/-- A model of `draw.Draw` on an `*image.RGBA` for the sample world: inside `r`,
the destination and the source, `Src` stores the converted source pixel and `Over`
blends it with the pixel below, channel by channel, as
`(d*(0xffff - sa)/0xffff + s) >> 8`. -/
def sampleDraw (dst : RGBAImage) (r : Rectangle) (src : Image) (sp : Point) (op : Op)
    (x y : Int) : RGBA :=
  if (Point.mk x y).In r && (Point.mk x y).In dst.Rect &&
      (Point.mk (sp.X + (x - r.Min.X)) (sp.Y + (y - r.Min.Y))).In src.Bounds then
    let c := src.At (sp.X + (x - r.Min.X)) (sp.Y + (y - r.Min.Y))
    match op with
    | .Src => rgbaModel c
    | .Over =>
      let (sr, sg, sb, sa) := c.channels
      let d := dst.Pix x y
      let a := 0xffff - sa
      ⟨highByte (d.R * 0x101 * a / 0xffff + sr), highByte (d.G * 0x101 * a / 0xffff + sg),
        highByte (d.B * 0x101 * a / 0xffff + sb), highByte (d.A * 0x101 * a / 0xffff + sa)⟩
  else dst.Pix x y

/-- Sample collaborators of the overlay pipeline: an all-white symbol of the
requested size, `solidLogo` as the decoded overlay, and an encoder that writes the
width and the height of the raster. -/
def sampleOverlay : Overlay Unit where
  New := fun _ => .ok ()
  Image := fun _ size => ⟨Rect 0 0 size size, fun _ _ => .rgba ⟨255, 255, 255, 255⟩⟩
  Open := fun _ => .ok [137, 80, 78, 71]
  Decode := fun _ => .ok solidLogo
  Draw := sampleDraw
  Encode := fun result => .ok [result.Bounds.Dx.toNat, result.Bounds.Dy.toNat]
  Mem := 1073741824

/-- The symbol of a 600-byte payload at the highest error-correction level: version
27, 125 modules and a quiet zone of 4 modules on each side. -/
def longPayloadSymbol : Int := 133

/-- A payload of 600 bytes. -/
def longPayload : String := String.mk (List.replicate 600 'a')

/-- The sample collaborators with a QR encoder that renders a symbol at one pixel
per module when the requested size is smaller than the symbol, as go-qrcode does
for the 600-byte payload at size 128. -/
def longPayloadOverlay : Overlay Unit :=
  { sampleOverlay with
    Image := fun _ size =>
      let size := if size < longPayloadSymbol then longPayloadSymbol else size
      ⟨Rect 0 0 size size, fun _ _ => .rgba ⟨255, 255, 255, 255⟩⟩ }

/-- A sample world in which the artistic encoder returns the seed it was given. -/
def sampleWorld : World Unit where
  overlay := sampleOverlay
  ReadFile := fun _ => .ok [137, 80, 78, 71]
  Now := 1700000000000000000
  Encode := fun _ _ seed _ _ _ _ _ _ _ _ _ => some [seed.toNat]
  WriteFile := fun _ _ => .ok ()
  PrintDefaults := []

/-- The sample world with an artistic encoder that returns an empty slice that is
not `nil`. -/
def emptyResultWorld : World Unit :=
  { sampleWorld with Encode := fun _ _ _ _ _ _ _ _ _ _ _ _ => some [] }

/-- The sample world with an artistic encoder that returns `nil`. -/
def nilResultWorld : World Unit :=
  { sampleWorld with Encode := fun _ _ _ _ _ _ _ _ _ _ _ _ => none }

/-- The default flag values with `-image logo.png -seed 7`. -/
def sampleFlags : Flags where
  imagePath := "logo.png"
  url := "https://example.com"
  output := "qrcode.png"
  version := 6
  scale := 8
  mask := 2
  dx := 4
  dy := 4
  randControl := false
  dither := false
  onlyData := false
  saveControl := false
  seed := 7
  overlay := false
  overlaySize := 25
  size := 512

/-! ## Integers: when nothing wraps -/

theorem wrapInt_of_isInt (v : Int) (h : isInt v) : wrapInt v = v := by
  simp only [isInt, minInt, maxInt] at h
  unfold wrapInt
  omega

theorem intMul_exact (a b : Int) (h0 : 0 ≤ a * b) (h1 : a * b ≤ maxInt) : intMul a b = a * b := by
  apply wrapInt_of_isInt
  simp only [isInt, minInt, maxInt] at h1 ⊢
  omega

/-- The width of a well-formed rectangle that `Dx` reports as not negative is the
exact difference of its coordinates. -/
theorem intSub_exact (lo hi : Int) (hlo : isInt lo) (hhi : isInt hi) (hle : lo ≤ hi)
    (hd : 0 ≤ intSub hi lo) : intSub hi lo = hi - lo := by
  simp only [isInt, minInt, maxInt] at hlo hhi
  unfold intSub wrapInt at hd ⊢
  omega

/-! ## `resizeImage`: the loops -/

theorem Set_Rect (p : RGBAImage) (x y : Int) (c : Color) : (p.Set x y c).Rect = p.Rect := by
  unfold RGBAImage.Set
  split <;> rfl

theorem Set_Pix (p : RGBAImage) (x y : Int) (c : Color) (x1 y1 : Int) :
    (p.Set x y c).Pix x1 y1 =
      if (Point.mk x y).In p.Rect = true ∧ x1 = x ∧ y1 = y then rgbaModel c else p.Pix x1 y1 := by
  unfold RGBAImage.Set
  by_cases h : (Point.mk x y).In p.Rect = true
  · simp [h]
  · simp [h]

theorem resizePixel_ok (img : Image) (width height : Int) (hw : width ≠ 0) (hh : height ≠ 0)
    (y : Nat) (res : RGBAImage) (x : Nat) :
    resizePixel img width height y res x = .ok (res.Set x y (sampled img width height x y)) := by
  simp [resizePixel, intDiv, hw, hh, sampled, bind, Except.bind, pure, Except.pure]

theorem foldlM_resizePixel (img : Image) (width height : Int) (hh : height ≠ 0) (y : Nat) :
    ∀ (xs : List Nat), (xs ≠ [] → width ≠ 0) → ∀ (res : RGBAImage),
      ∃ res1, xs.foldlM (resizePixel img width height y) res = .ok res1 ∧ res1.Rect = res.Rect ∧
        ∀ x1 y1, res1.Pix x1 y1 =
          if y1 = (y : Int) ∧ (∃ n ∈ xs, (n : Int) = x1) ∧ (Point.mk x1 y1).In res.Rect = true
          then rgbaModel (sampled img width height x1 y1) else res.Pix x1 y1 := by
  intro xs
  induction xs with
  | nil =>
    intro _ res
    exact ⟨res, rfl, rfl, by simp⟩
  | cons n xs ih =>
    intro hne res
    have hw : width ≠ 0 := hne (List.cons_ne_nil _ _)
    obtain ⟨res1, hok, hrect, hpix⟩ := ih (fun _ => hw) (res.Set n y (sampled img width height n y))
    refine ⟨res1, ?_, ?_, ?_⟩
    · rw [List.foldlM_cons, resizePixel_ok img width height hw hh]
      exact hok
    · rw [hrect, Set_Rect]
    · intro x1 y1
      rw [hpix, Set_Pix, Set_Rect]
      by_cases hy : y1 = (y : Int)
      · by_cases hx : x1 = (n : Int)
        · subst hx hy
          by_cases hin : (Point.mk (n : Int) (y : Int)).In res.Rect = true
          · simp [hin]
          · simp [hin]
        · have hx' : ¬ (n : Int) = x1 := fun h => hx h.symm
          simp [hy, hx, hx']
      · simp [hy]

theorem range_toNat_ne_nil (w : Int) (h : List.range w.toNat ≠ []) : w ≠ 0 := by
  intro h0
  subst h0
  exact h rfl

theorem mem_range_toNat (w v : Int) : (∃ n ∈ List.range w.toNat, (n : Int) = v) ↔ 0 ≤ v ∧ v < w := by
  constructor
  · rintro ⟨n, hn, rfl⟩
    rw [List.mem_range] at hn
    omega
  · rintro ⟨h0, h1⟩
    refine ⟨v.toNat, ?_, ?_⟩
    · rw [List.mem_range]
      omega
    · omega

theorem foldlM_resizeRow (img : Image) (width height : Int) :
    ∀ (ys : List Nat), (ys ≠ [] → height ≠ 0) → ∀ (res : RGBAImage),
      ∃ res1, ys.foldlM (resizeRow img width height) res = .ok res1 ∧ res1.Rect = res.Rect ∧
        ∀ x1 y1, res1.Pix x1 y1 =
          if (∃ m ∈ ys, (m : Int) = y1) ∧ (0 ≤ x1 ∧ x1 < width) ∧
              (Point.mk x1 y1).In res.Rect = true
          then rgbaModel (sampled img width height x1 y1) else res.Pix x1 y1 := by
  intro ys
  induction ys with
  | nil =>
    intro _ res
    exact ⟨res, rfl, rfl, by simp⟩
  | cons m ys ih =>
    intro hne res
    have hh : height ≠ 0 := hne (List.cons_ne_nil _ _)
    obtain ⟨row, hrow, hrowRect, hrowPix⟩ :=
      foldlM_resizePixel img width height hh m (List.range width.toNat)
        (range_toNat_ne_nil width) res
    obtain ⟨res1, hok, hrect, hpix⟩ := ih (fun _ => hh) row
    refine ⟨res1, ?_, ?_, ?_⟩
    · rw [List.foldlM_cons]
      unfold resizeRow
      rw [hrow]
      exact hok
    · rw [hrect, hrowRect]
    · intro x1 y1
      rw [hpix, hrowPix, hrowRect]
      simp only [mem_range_toNat]
      by_cases hy : y1 = (m : Int)
      · subst hy
        by_cases hc : (0 ≤ x1 ∧ x1 < width) ∧ (Point.mk x1 (m : Int)).In res.Rect = true
        · simp [hc]
        · simp only [List.mem_cons, exists_eq_or_imp, true_and, true_or]
          simp [hc]
      · have hy' : ¬ (m : Int) = y1 := fun h => hy h.symm
        simp [hy, hy']


theorem Rect_nonneg (w h : Int) (hw : 0 ≤ w) (hh : 0 ≤ h) : Rect 0 0 w h = ⟨⟨0, 0⟩, ⟨w, h⟩⟩ := by
  unfold Rect
  have h1 : ¬ (0 : Int) > w := by omega
  have h2 : ¬ (0 : Int) > h := by omega
  simp [h1, h2]

theorem In_iff (x y : Int) (r : Rectangle) :
    (Point.mk x y).In r = true ↔ (r.Min.X ≤ x ∧ x < r.Max.X) ∧ (r.Min.Y ≤ y ∧ y < r.Max.Y) := by
  simp [Point.In, and_assoc]

/-- For a target that fits, `image.NewRGBA` returns the zero image of the rectangle
`(0, 0)-(width, height)`. -/
theorem NewRGBA_fits (mem width height : Int) (hfit : targetFits mem width height) :
    NewRGBA mem (Rect 0 0 width height) = .ok (blank ⟨⟨0, 0⟩, ⟨width, height⟩⟩) := by
  obtain ⟨⟨hw0, hw1⟩, ⟨hh0, hh1⟩, hfitInt, hfitMem⟩ := hfit
  rw [Rect_nonneg width height hw0 hh0]
  have hdx : (Rectangle.mk ⟨0, 0⟩ ⟨width, height⟩).Dx = width := by
    simp only [Rectangle.Dx, intSub, Int.sub_zero]
    apply wrapInt_of_isInt
    simp only [isInt, minInt, maxInt]
    omega
  have hdy : (Rectangle.mk ⟨0, 0⟩ ⟨width, height⟩).Dy = height := by
    simp only [Rectangle.Dy, intSub, Int.sub_zero]
    apply wrapInt_of_isInt
    simp only [isInt, minInt, maxInt] at hh1 ⊢
    omega
  have hm : mul3NonNeg 4 width height = 4 * width * height := by
    unfold mul3NonNeg
    have hprod : 0 ≤ 4 * width * height := Int.mul_nonneg (by omega) hh0
    have c1 : ¬ ((4 : Int) < 0 ∨ width < 0 ∨ height < 0) := by omega
    have c2 : ¬ (4 * width ≥ 18446744073709551616) := by omega
    have c3 : ¬ (4 * width * height ≥ 18446744073709551616) := by
      simp only [maxInt] at hfitInt
      omega
    have c4 : ¬ (4 * width * height > maxInt) := by omega
    rw [if_neg c1, if_neg c2, if_neg c3, if_neg c4]
  have hprod : 0 ≤ 4 * width * height := Int.mul_nonneg (by omega) hh0
  unfold NewRGBA pixelBufferLength
  rw [hdx, hdy, hm]
  have c5 : ¬ (4 * width * height < 0) := by omega
  have c6 : ¬ (4 * width * height > mem) := by omega
  simp only [c5, c6, if_false, bind, Except.bind, pure, Except.pure]

/-- What `resizeImage` returns for a target that fits: the rectangle is
`(0, 0)-(width, height)` and the pixel of each destination is the converted colour
that the code samples. -/
theorem resizeImage_spec (mem : Int) (img : Image) (width height : Int)
    (hfit : targetFits mem width height) :
    ∃ r, resizeImage mem img width height = .ok r ∧ r.Rect = ⟨⟨0, 0⟩, ⟨width, height⟩⟩ ∧
      ∀ x1 y1, r.Pix x1 y1 =
        if (0 ≤ y1 ∧ y1 < height) ∧ (0 ≤ x1 ∧ x1 < width)
        then rgbaModel (sampled img width height x1 y1) else ⟨0, 0, 0, 0⟩ := by
  obtain ⟨r, hok, hrect, hpix⟩ :=
    foldlM_resizeRow img width height (List.range height.toNat) (range_toNat_ne_nil height)
      (blank ⟨⟨0, 0⟩, ⟨width, height⟩⟩)
  refine ⟨r, ?_, hrect, ?_⟩
  · unfold resizeImage
    rw [NewRGBA_fits mem width height hfit]
    exact hok
  · intro x1 y1
    rw [hpix]
    simp only [mem_range_toNat]
    by_cases hy : 0 ≤ y1 ∧ y1 < height
    · by_cases hx : 0 ≤ x1 ∧ x1 < width
      · have hin : (Point.mk x1 y1).In (blank ⟨⟨0, 0⟩, ⟨width, height⟩⟩).Rect = true := by
          rw [In_iff]
          exact ⟨hx, hy⟩
        simp [hy, hx, hin]
      · simp [hx]
        rfl
    · simp [hy]
      rfl

/-- A panic of `image.NewRGBA` is the outcome of `resizeImage`. -/
theorem resizeImage_error (mem : Int) (img : Image) (width height : Int) (err : String)
    (h : NewRGBA mem (Rect 0 0 width height) = .error err) :
    resizeImage mem img width height = .error err := by
  unfold resizeImage
  rw [h]
  rfl

/-- The sampled index stays inside the source: `0 ≤ i * srcLen / dstLen < srcLen`. -/
theorem sample_in_range (i srcLen dstLen : Int) (hs : 0 < srcLen) (h0 : 0 ≤ i) (h1 : i < dstLen) :
    0 ≤ (i * srcLen).tdiv dstLen ∧ (i * srcLen).tdiv dstLen < srcLen := by
  have hd : 0 < dstLen := by omega
  have hn : 0 ≤ i * srcLen := Int.mul_nonneg h0 (le_of_lt hs)
  rw [Int.tdiv_eq_ediv hn (le_of_lt hd)]
  refine ⟨Int.ediv_nonneg hn (le_of_lt hd), ?_⟩
  apply Int.ediv_lt_of_lt_mul hd
  rw [Int.mul_comm srcLen dstLen]
  exact mul_lt_mul_of_pos_right h1 hs

/-- Along one axis, the coordinate that the code computes on `int` is the exact
`lo + i * srcLen / dstLen` when the product `i * srcLen` fits `int`. -/
theorem sample_exact (lo hi dstLen i : Int) (hlo : isInt lo) (hhi : isInt hi) (hle : lo ≤ hi)
    (hs : 0 < intSub hi lo) (h0 : 0 ≤ i) (h1 : i < dstLen) (hfit : i * intSub hi lo ≤ maxInt) :
    intAdd lo (wrapInt ((intMul i (intSub hi lo)).tdiv dstLen)) =
      lo + (i * intSub hi lo).tdiv dstLen := by
  have hd := intSub_exact lo hi hlo hhi hle (le_of_lt hs)
  obtain ⟨hq0, hq1⟩ := sample_in_range i (intSub hi lo) dstLen hs h0 h1
  have hn : 0 ≤ i * intSub hi lo := Int.mul_nonneg h0 (le_of_lt hs)
  rw [intMul_exact _ _ hn hfit]
  have hq : isInt ((i * intSub hi lo).tdiv dstLen) := by
    have hle2 : (i * intSub hi lo).tdiv dstLen ≤ i * intSub hi lo := by
      rw [Int.tdiv_eq_ediv hn (by omega)]
      exact Int.ediv_le_self _ hn
    simp only [isInt, minInt, maxInt] at hfit ⊢
    omega
  rw [wrapInt_of_isInt _ hq]
  apply wrapInt_of_isInt
  simp only [isInt, minInt, maxInt] at hlo hhi ⊢
  omega

/-- The colour that the code samples is the colour at the exact coordinate when the
two products fit `int`. -/
theorem sampled_exact (img : Image) (width height x y : Int) (hwf : img.Bounds.WellFormed)
    (hsw : 0 < img.Bounds.Dx) (hsh : 0 < img.Bounds.Dy)
    (hx : 0 ≤ x ∧ x < width) (hy : 0 ≤ y ∧ y < height)
    (hox : x * img.Bounds.Dx ≤ maxInt) (hoy : y * img.Bounds.Dy ≤ maxInt) :
    sampled img width height x y =
      img.At (img.Bounds.Min.X + (x * img.Bounds.Dx).tdiv width)
        (img.Bounds.Min.Y + (y * img.Bounds.Dy).tdiv height) := by
  obtain ⟨⟨hx0, hx1, hxle⟩, ⟨hy0, hy1, hyle⟩⟩ := hwf
  unfold sampled
  unfold Rectangle.Dx at hsw hox ⊢
  unfold Rectangle.Dy at hsh hoy ⊢
  rw [sample_exact _ _ width x hx0 hx1 hxle hsw hx.1 hx.2 hox,
    sample_exact _ _ height y hy0 hy1 hyle hsh hy.1 hy.2 hoy]

/-- The pixel that `resizeImage` leaves at a destination inside a target that fits. -/
theorem resizeImage_At (mem : Int) (img : Image) (width height x y : Int)
    (hfit : targetFits mem width height) (hx : 0 ≤ x ∧ x < width) (hy : 0 ≤ y ∧ y < height) :
    ∃ r, resizeImage mem img width height = .ok r ∧ r.Rect = ⟨⟨0, 0⟩, ⟨width, height⟩⟩ ∧
      r.At x y = .rgba (rgbaModel (sampled img width height x y)) := by
  obtain ⟨r, hok, hrect, hpix⟩ := resizeImage_spec mem img width height hfit
  have hin : (Point.mk x y).In r.Rect = true := by
    rw [hrect, In_iff]
    exact ⟨hx, hy⟩
  refine ⟨r, hok, hrect, ?_⟩
  unfold RGBAImage.At
  rw [if_pos hin, hpix, if_pos ⟨hy, hx⟩]

/-- When the destination is at least as long as the source, every source index
is sampled by some destination index. -/
theorem sample_surjective (s srcLen dstLen : Int) (h0 : 0 ≤ s) (h1 : s < srcLen)
    (hle : srcLen ≤ dstLen) :
    ∃ i, (0 ≤ i ∧ i < dstLen) ∧ (i * srcLen).tdiv dstLen = s := by
  have hs : 0 < srcLen := by omega
  have hd : 0 < dstLen := by omega
  have hsd : 0 ≤ s * dstLen := Int.mul_nonneg h0 (le_of_lt hd)
  -- the least index whose product reaches `s * dstLen`
  let i := (s * dstLen + srcLen - 1) / srcLen
  have hlo : i * srcLen ≤ s * dstLen + srcLen - 1 := Int.ediv_mul_le _ (ne_of_gt hs)
  have hhi : s * dstLen + srcLen - 1 < (i + 1) * srcLen := Int.lt_ediv_add_one_mul_self _ hs
  have hi0 : 0 ≤ i := Int.ediv_nonneg (by omega) (le_of_lt hs)
  have hge : s * dstLen ≤ i * srcLen := by
    have : (i + 1) * srcLen = i * srcLen + srcLen := by ring
    omega
  have hlt : i * srcLen < (s + 1) * dstLen := by
    have : (s + 1) * dstLen = s * dstLen + dstLen := by ring
    omega
  have hiw : i < dstLen := by
    by_contra hcon
    have h2 : dstLen * srcLen ≤ i * srcLen :=
      Int.mul_le_mul_of_nonneg_right (by omega) (le_of_lt hs)
    have h3 : (s + 1) * dstLen ≤ srcLen * dstLen :=
      Int.mul_le_mul_of_nonneg_right (by omega) (le_of_lt hd)
    have h4 : dstLen * srcLen = srcLen * dstLen := Int.mul_comm _ _
    omega
  refine ⟨i, ⟨hi0, hiw⟩, ?_⟩
  rw [Int.tdiv_eq_ediv (Int.mul_nonneg hi0 (le_of_lt hs)) (le_of_lt hd)]
  apply le_antisymm
  · have : i * srcLen / dstLen < s + 1 := Int.ediv_lt_of_lt_mul hd hlt
    omega
  · exact Int.le_ediv_of_mul_le hd hge

theorem tdiv_mul_self (i n : Int) (hn : 0 < n) : (i * n).tdiv n = i := by
  rw [Int.tdiv_eq_ediv_of_dvd (Dvd.intro_left i rfl)]
  exact Int.mul_ediv_cancel i (ne_of_gt hn)

/-- For a target that fits, `resizeImage` returns an image with the rectangle
`(0, 0)-(width, height)`, which is empty when a side is 0. -/
theorem resizeImage_dims (mem : Int) (img : Image) (width height : Int)
    (hfit : targetFits mem width height) :
    ∃ r, resizeImage mem img width height = .ok r ∧
      r.Bounds = ⟨⟨0, 0⟩, ⟨width, height⟩⟩ ∧ r.Bounds.Dx = width ∧ r.Bounds.Dy = height ∧
      (width = 0 ∨ height = 0 →
        r.Bounds.Empty = true ∧ ∀ x y, (Point.mk x y).In r.Bounds = false ∧
          r.At x y = .rgba ⟨0, 0, 0, 0⟩) := by
  obtain ⟨r, hok, hrect, _⟩ := resizeImage_spec mem img width height hfit
  obtain ⟨⟨hw0, hw1⟩, ⟨hh0, hh1⟩, _, _⟩ := hfit
  refine ⟨r, hok, hrect, ?_, ?_, ?_⟩
  · simp only [RGBAImage.Bounds, hrect, Rectangle.Dx, intSub, Int.sub_zero]
    apply wrapInt_of_isInt
    simp only [isInt, minInt, maxInt]
    omega
  · simp only [RGBAImage.Bounds, hrect, Rectangle.Dy, intSub, Int.sub_zero]
    apply wrapInt_of_isInt
    simp only [isInt, minInt, maxInt] at hh1 ⊢
    omega
  · intro h0
    have hout : ∀ x y, (Point.mk x y).In r.Rect = false := by
      intro x y
      rw [Bool.eq_false_iff]
      intro hin
      rw [hrect, In_iff] at hin
      simp only at hin
      omega
    refine ⟨?_, ?_⟩
    · simp only [RGBAImage.Bounds, hrect, Rectangle.Empty, Bool.or_eq_true, decide_eq_true_eq]
      omega
    · intro x y
      refine ⟨hout x y, ?_⟩
      unfold RGBAImage.At
      rw [hout x y]
      rfl

/-! ## `resizeImage`: the claims -/

/-- C1 (amended). For a source with a well-formed rectangle and positive width and
height, a target that `image.NewRGBA` can allocate and a destination `(x, y)` with
`0 ≤ x < width` and `0 ≤ y < height` (so `width > 0` and `height > 0`) whose
products `x*srcWidth` and `y*srcHeight` fit `int`, `resizeImage` returns an image
whose pixel at `(x, y)` is the source pixel at
`(bounds.Min.X + x*srcWidth/width, bounds.Min.Y + y*srcHeight/height)` (truncating
division) converted by `color.RGBAModel`; a source pixel that is a `color.RGBA`
value is stored unchanged; and the source coordinate lies inside the bounds. -/
theorem resizeImage_samples_nearest (mem : Int) (img : Image) (width height x y : Int)
    (hwf : img.Bounds.WellFormed) (hsw : 0 < img.Bounds.Dx) (hsh : 0 < img.Bounds.Dy)
    (hfit : targetFits mem width height)
    (hx : 0 ≤ x ∧ x < width) (hy : 0 ≤ y ∧ y < height)
    (hox : x * img.Bounds.Dx ≤ maxInt) (hoy : y * img.Bounds.Dy ≤ maxInt) :
    ∃ r, resizeImage mem img width height = .ok r ∧
      r.At x y = .rgba (rgbaModel (img.At (img.Bounds.Min.X + (x * img.Bounds.Dx).tdiv width)
        (img.Bounds.Min.Y + (y * img.Bounds.Dy).tdiv height))) ∧
      (∀ c, img.At (img.Bounds.Min.X + (x * img.Bounds.Dx).tdiv width)
          (img.Bounds.Min.Y + (y * img.Bounds.Dy).tdiv height) = .rgba c → r.At x y = .rgba c) ∧
      (0 ≤ (x * img.Bounds.Dx).tdiv width ∧ (x * img.Bounds.Dx).tdiv width < img.Bounds.Dx) ∧
      (0 ≤ (y * img.Bounds.Dy).tdiv height ∧ (y * img.Bounds.Dy).tdiv height < img.Bounds.Dy) ∧
      (Point.mk (img.Bounds.Min.X + (x * img.Bounds.Dx).tdiv width)
        (img.Bounds.Min.Y + (y * img.Bounds.Dy).tdiv height)).In img.Bounds = true := by
  obtain ⟨r, hok, _, hat⟩ := resizeImage_At mem img width height x y hfit hx hy
  rw [sampled_exact img width height x y hwf hsw hsh hx hy hox hoy] at hat
  have hbx := sample_in_range x img.Bounds.Dx width hsw hx.1 hx.2
  have hby := sample_in_range y img.Bounds.Dy height hsh hy.1 hy.2
  refine ⟨r, hok, hat, ?_, hbx, hby, ?_⟩
  · intro c hc
    rw [hat, hc]
    rfl
  · obtain ⟨⟨hx0, hx1, hxle⟩, ⟨hy0, hy1, hyle⟩⟩ := hwf
    have hdx := intSub_exact _ _ hx0 hx1 hxle (le_of_lt hsw)
    have hdy := intSub_exact _ _ hy0 hy1 hyle (le_of_lt hsh)
    rw [In_iff]
    unfold Rectangle.Dx at hbx
    unfold Rectangle.Dy at hby
    rw [hdx] at hbx
    rw [hdy] at hby
    simp only [Rectangle.Dx, Rectangle.Dy, hdx, hdy]
    omega

/-- The sampling theorem at `solidLogo` resized to 4x2, destination `(3, 1)`. -/
theorem resizeImage_samples_nearest_witness :
    solidLogo.Bounds.WellFormed ∧
    (0 : Int) < solidLogo.Bounds.Dx ∧ (0 : Int) < solidLogo.Bounds.Dy ∧
    targetFits 1000 4 2 ∧
    (3 : Int) * solidLogo.Bounds.Dx ≤ maxInt ∧ (1 : Int) * solidLogo.Bounds.Dy ≤ maxInt ∧
    ∃ r, resizeImage 1000 solidLogo 4 2 = .ok r ∧
      r.At 3 1 = .rgba (rgbaModel (solidLogo.At
        (solidLogo.Bounds.Min.X + ((3 : Int) * solidLogo.Bounds.Dx).tdiv 4)
        (solidLogo.Bounds.Min.Y + ((1 : Int) * solidLogo.Bounds.Dy).tdiv 2))) ∧
      (∀ c, solidLogo.At (solidLogo.Bounds.Min.X + ((3 : Int) * solidLogo.Bounds.Dx).tdiv 4)
          (solidLogo.Bounds.Min.Y + ((1 : Int) * solidLogo.Bounds.Dy).tdiv 2) = .rgba c →
        r.At 3 1 = .rgba c) ∧
      (0 ≤ ((3 : Int) * solidLogo.Bounds.Dx).tdiv 4 ∧
        ((3 : Int) * solidLogo.Bounds.Dx).tdiv 4 < solidLogo.Bounds.Dx) ∧
      (0 ≤ ((1 : Int) * solidLogo.Bounds.Dy).tdiv 2 ∧
        ((1 : Int) * solidLogo.Bounds.Dy).tdiv 2 < solidLogo.Bounds.Dy) ∧
      (Point.mk (solidLogo.Bounds.Min.X + ((3 : Int) * solidLogo.Bounds.Dx).tdiv 4)
        (solidLogo.Bounds.Min.Y + ((1 : Int) * solidLogo.Bounds.Dy).tdiv 2)).In
          solidLogo.Bounds = true :=
  ⟨by decide, by decide, by decide, by decide, by decide, by decide,
    resizeImage_samples_nearest 1000 solidLogo 4 2 3 1 (by decide) (by decide) (by decide)
      (by decide) (by decide) (by decide) (by decide) (by decide)⟩

/-- C1 (counterexample). First, a 1x1 16-bit source resized to 2x2: the source has
positive width and height, the destination `(1, 1)` samples the source pixel at
`(0, 0)`, and the pixel of the result is not that pixel: its channels are the high
bytes. Second, a source of width `2^62` resized to 3x1: at the destination `(2, 0)`
the product `2 * 2^62` wraps, the code reads the source column
`-3074457345618258602`, outside the bounds, and stores the colour found there. -/
theorem resizeImage_pixel_not_verbatim :
    ((0 : Int) < deepLogo.Bounds.Dx ∧ (0 : Int) < deepLogo.Bounds.Dy ∧
    deepLogo.At (deepLogo.Bounds.Min.X + ((1 : Int) * deepLogo.Bounds.Dx).tdiv 2)
      (deepLogo.Bounds.Min.Y + ((1 : Int) * deepLogo.Bounds.Dy).tdiv 2) =
        .rgba64 ⟨0x1234, 0x5678, 0x9abc, 0xffff⟩ ∧
    pixelOf (resizeImage 1000 deepLogo 2 2) 1 1 = some (.rgba ⟨0x12, 0x56, 0x9a, 0xff⟩) ∧
    pixelOf (resizeImage 1000 deepLogo 2 2) 1 1 ≠
      some (deepLogo.At (deepLogo.Bounds.Min.X + ((1 : Int) * deepLogo.Bounds.Dx).tdiv 2)
        (deepLogo.Bounds.Min.Y + ((1 : Int) * deepLogo.Bounds.Dy).tdiv 2)) ∧
    (Color.rgba ⟨0x12, 0x56, 0x9a, 0xff⟩).channels = (0x1212, 0x5656, 0x9a9a, 0xffff) ∧
    (Color.rgba64 ⟨0x1234, 0x5678, 0x9abc, 0xffff⟩).channels = (0x1234, 0x5678, 0x9abc, 0xffff)) ∧
    (wideSource.Bounds.WellFormed ∧ wideSource.Bounds.Dx = 4611686018427387904 ∧
      wideSource.Bounds.Dy = 1 ∧
    intMul 2 wideSource.Bounds.Dx = minInt ∧
    (intDiv (intMul 2 wideSource.Bounds.Dx) 3).toOption = some (-3074457345618258602) ∧
    wideSource.At (wideSource.Bounds.Min.X + ((2 : Int) * wideSource.Bounds.Dx).tdiv 3)
      (wideSource.Bounds.Min.Y + ((0 : Int) * wideSource.Bounds.Dy).tdiv 1) = .rgba ⟨1, 2, 3, 255⟩ ∧
    pixelOf (resizeImage 1000 wideSource 3 1) 2 0 = some (.rgba ⟨9, 9, 9, 255⟩)) := by
  decide

/-- C2 (amended). For a source with a well-formed rectangle whose own size is a
target that `image.NewRGBA` can allocate and whose `srcWidth*srcWidth` and
`srcHeight*srcHeight` fit `int`, resizing it to its own width and height returns an
image of that width and height whose pixel at every `(x, y)` of the grid is the
source pixel at `(bounds.Min.X + x, bounds.Min.Y + y)` converted by
`color.RGBAModel`; where the source pixel is a `color.RGBA` value the two pixels
are the same value. -/
theorem resizeImage_same_size (mem : Int) (img : Image) (hwf : img.Bounds.WellFormed)
    (hfit : targetFits mem img.Bounds.Dx img.Bounds.Dy)
    (hox : img.Bounds.Dx * img.Bounds.Dx ≤ maxInt)
    (hoy : img.Bounds.Dy * img.Bounds.Dy ≤ maxInt) :
    ∃ r, resizeImage mem img img.Bounds.Dx img.Bounds.Dy = .ok r ∧
      r.Bounds.Dx = img.Bounds.Dx ∧ r.Bounds.Dy = img.Bounds.Dy ∧
      ∀ x y, 0 ≤ x ∧ x < img.Bounds.Dx → 0 ≤ y ∧ y < img.Bounds.Dy →
        r.At x y = .rgba (rgbaModel (img.At (img.Bounds.Min.X + x) (img.Bounds.Min.Y + y))) ∧
        ∀ c, img.At (img.Bounds.Min.X + x) (img.Bounds.Min.Y + y) = .rgba c →
          r.At x y = .rgba c := by
  obtain ⟨r, hok, _, hdx, hdy, _⟩ := resizeImage_dims mem img _ _ hfit
  refine ⟨r, hok, hdx, hdy, ?_⟩
  intro x y hx hy
  obtain ⟨r1, hok1, _, hat⟩ := resizeImage_At mem img img.Bounds.Dx img.Bounds.Dy x y hfit hx hy
  rw [hok] at hok1
  cases hok1
  have hsw : 0 < img.Bounds.Dx := by omega
  have hsh : 0 < img.Bounds.Dy := by omega
  have hxo : x * img.Bounds.Dx ≤ maxInt :=
    le_trans (Int.mul_le_mul_of_nonneg_right (le_of_lt hx.2) (le_of_lt hsw)) hox
  have hyo : y * img.Bounds.Dy ≤ maxInt :=
    le_trans (Int.mul_le_mul_of_nonneg_right (le_of_lt hy.2) (le_of_lt hsh)) hoy
  have hat1 : r.At x y =
      .rgba (rgbaModel (img.At (img.Bounds.Min.X + x) (img.Bounds.Min.Y + y))) := by
    rw [hat, sampled_exact img _ _ x y hwf hsw hsh hx hy hxo hyo,
      tdiv_mul_self x _ hsw, tdiv_mul_self y _ hsh]
  refine ⟨hat1, ?_⟩
  intro c hc
  rw [hat1, hc]
  rfl

/-- The same-size theorem at `solidLogo`. -/
theorem resizeImage_same_size_witness :
    solidLogo.Bounds.WellFormed ∧
    targetFits 1000 solidLogo.Bounds.Dx solidLogo.Bounds.Dy ∧
    solidLogo.Bounds.Dx * solidLogo.Bounds.Dx ≤ maxInt ∧
    solidLogo.Bounds.Dy * solidLogo.Bounds.Dy ≤ maxInt ∧
    ∃ r, resizeImage 1000 solidLogo solidLogo.Bounds.Dx solidLogo.Bounds.Dy = .ok r ∧
      r.Bounds.Dx = solidLogo.Bounds.Dx ∧ r.Bounds.Dy = solidLogo.Bounds.Dy ∧
      ∀ x y, 0 ≤ x ∧ x < solidLogo.Bounds.Dx → 0 ≤ y ∧ y < solidLogo.Bounds.Dy →
        r.At x y =
          .rgba (rgbaModel (solidLogo.At (solidLogo.Bounds.Min.X + x)
            (solidLogo.Bounds.Min.Y + y))) ∧
        ∀ c, solidLogo.At (solidLogo.Bounds.Min.X + x) (solidLogo.Bounds.Min.Y + y) = .rgba c →
          r.At x y = .rgba c :=
  ⟨by decide, by decide, by decide, by decide,
    resizeImage_same_size 1000 solidLogo (by decide) (by decide) (by decide) (by decide)⟩

/-- C2 (counterexample). First, a 1x1 PNG-style source with one half-transparent
pixel, resized to its own 1x1 size: the result has the pixel `RGBA{39, 0, 0, 100}`
where the source has `NRGBA{100, 0, 0, 100}`; the red channels differ, as stored
and as returned by `RGBA()`. Second, a source with the rectangle of an
`image.Uniform`, resized to its own size: `image.NewRGBA` panics. Third, a source
of width `2^32`, resized to its own size: at the destination `(2^31, 0)` the product
wraps and the pixel is the colour outside the bounds, not the source pixel. -/
theorem resizeImage_same_size_not_identical :
    (translucentLogo.Bounds.Dx = 1 ∧ translucentLogo.Bounds.Dy = 1 ∧
    boundsOf (resizeImage 1000 translucentLogo translucentLogo.Bounds.Dx
      translucentLogo.Bounds.Dy) = some translucentLogo.Bounds ∧
    translucentLogo.At 0 0 = .nrgba ⟨100, 0, 0, 100⟩ ∧
    pixelOf (resizeImage 1000 translucentLogo translucentLogo.Bounds.Dx
      translucentLogo.Bounds.Dy) 0 0 = some (.rgba ⟨39, 0, 0, 100⟩) ∧
    pixelOf (resizeImage 1000 translucentLogo translucentLogo.Bounds.Dx
      translucentLogo.Bounds.Dy) 0 0 ≠ some (translucentLogo.At 0 0) ∧
    (Color.nrgba ⟨100, 0, 0, 100⟩).channels = (10078, 0, 0, 25700) ∧
    (Color.rgba ⟨39, 0, 0, 100⟩).channels = (10023, 0, 0, 25700)) ∧
    (uniformSource.Bounds.WellFormed ∧ uniformSource.Bounds.Dx = 2000000000 ∧
      uniformSource.Bounds.Dy = 2000000000 ∧
      resizeImage maxInt uniformSource uniformSource.Bounds.Dx uniformSource.Bounds.Dy =
        .error hugeOrNegative) ∧
    (longRow.Bounds.WellFormed ∧ longRow.Bounds.Dx = 4294967296 ∧ longRow.Bounds.Dy = 1 ∧
      longRow.At (longRow.Bounds.Min.X + 2147483648) (longRow.Bounds.Min.Y + 0) =
        .rgba ⟨1, 2, 3, 255⟩ ∧
      ∃ r, resizeImage 1099511627776 longRow longRow.Bounds.Dx longRow.Bounds.Dy = .ok r ∧
        r.At 2147483648 0 = .rgba ⟨9, 9, 9, 255⟩) := by
  refine ⟨by decide, ⟨by decide, by decide, by decide, rfl⟩, by decide, by decide, by decide,
    by decide, ?_⟩
  obtain ⟨r, hok, _, hat⟩ := resizeImage_At 1099511627776 longRow longRow.Bounds.Dx
    longRow.Bounds.Dy 2147483648 0 (by decide) (by decide) (by decide)
  refine ⟨r, hok, ?_⟩
  rw [hat]
  decide

/-- C3 (amended). For every source image and every target with `width ≥ 0` and
`height ≥ 0` that `image.NewRGBA` can allocate (`width < 2^62`, and
`4 * width * height` fits `int` and the memory), `resizeImage` returns (no division
panics) an image with the rectangle `(0, 0)-(width, height)`, so of width `width`
and height `height`; when `width` or `height` is 0 the image is empty: no point lies
in it and every `At` is the zero colour. -/
theorem resizeImage_dimensions (mem : Int) (img : Image) (width height : Int)
    (hfit : targetFits mem width height) :
    ∃ r, resizeImage mem img width height = .ok r ∧
      r.Bounds = ⟨⟨0, 0⟩, ⟨width, height⟩⟩ ∧ r.Bounds.Dx = width ∧ r.Bounds.Dy = height ∧
      (width = 0 ∨ height = 0 →
        r.Bounds.Empty = true ∧ ∀ x y, (Point.mk x y).In r.Bounds = false ∧
          r.At x y = .rgba ⟨0, 0, 0, 0⟩) := by
  exact resizeImage_dims mem img width height hfit

/-- The dimension theorem at `solidLogo` resized to 0x3. -/
theorem resizeImage_dimensions_witness :
    targetFits 1000 0 3 ∧
    ∃ r, resizeImage 1000 solidLogo 0 3 = .ok r ∧
      r.Bounds = ⟨⟨0, 0⟩, ⟨0, 3⟩⟩ ∧ r.Bounds.Dx = 0 ∧ r.Bounds.Dy = 3 ∧
      ((0 : Int) = 0 ∨ (3 : Int) = 0 →
        r.Bounds.Empty = true ∧ ∀ x y, (Point.mk x y).In r.Bounds = false ∧
          r.At x y = .rgba ⟨0, 0, 0, 0⟩) :=
  ⟨by decide, resizeImage_dimensions 1000 solidLogo 0 3 (by decide)⟩

/-- C3 (counterexample). The target `(2^62, 0)` has `width ≥ 0` and `height ≥ 0`, both
values of `int`, and needs no memory, yet `resizeImage` panics: `4 * width` does not
fit 64 bits and `image.NewRGBA` refuses the rectangle. -/
theorem resizeImage_huge_target_panics :
    (0 : Int) ≤ 4611686018427387904 ∧ isInt 4611686018427387904 ∧ (0 : Int) ≤ 0 ∧
    4 * (4611686018427387904 : Int) * 0 = 0 ∧
    resizeImage maxInt solidLogo 4611686018427387904 0 = .error hugeOrNegative :=
  ⟨by decide, by decide, by decide, by decide, rfl⟩

/-- C10 (amended). For a source with a well-formed rectangle and positive width and
height (which a source column and row imply) and a target with `width ≥ srcWidth`
and `height ≥ srcHeight` that `image.NewRGBA` can allocate and for which
`srcWidth*width` and `srcHeight*height` fit `int`, every source column `s` in
`[0, srcWidth)` is `x*srcWidth/width` for a destination column `x` in `[0, width)`
and every source row `t` in `[0, srcHeight)` is `y*srcHeight/height` for a
destination row `y` in `[0, height)`; the image that `resizeImage` returns holds at
`(x, y)` the converted source pixel of `(bounds.Min.X + s, bounds.Min.Y + t)`. -/
theorem resizeImage_upscale_keeps_every_pixel (mem : Int) (img : Image) (width height s t : Int)
    (hwf : img.Bounds.WellFormed)
    (hw : img.Bounds.Dx ≤ width) (hh : img.Bounds.Dy ≤ height)
    (hs : 0 ≤ s ∧ s < img.Bounds.Dx) (ht : 0 ≤ t ∧ t < img.Bounds.Dy)
    (hfit : targetFits mem width height)
    (hox : img.Bounds.Dx * width ≤ maxInt) (hoy : img.Bounds.Dy * height ≤ maxInt) :
    ∃ x y, (0 ≤ x ∧ x < width) ∧ (0 ≤ y ∧ y < height) ∧
      intDiv (intMul x img.Bounds.Dx) width = .ok s ∧
      intDiv (intMul y img.Bounds.Dy) height = .ok t ∧
      ∃ r, resizeImage mem img width height = .ok r ∧
        r.At x y = .rgba (rgbaModel (img.At (img.Bounds.Min.X + s) (img.Bounds.Min.Y + t))) := by
  obtain ⟨x, hx, hxs⟩ := sample_surjective s img.Bounds.Dx width hs.1 hs.2 hw
  obtain ⟨y, hy, hyt⟩ := sample_surjective t img.Bounds.Dy height ht.1 ht.2 hh
  obtain ⟨r, hok, _, hat⟩ := resizeImage_At mem img width height x y hfit hx hy
  have hsw : 0 < img.Bounds.Dx := by omega
  have hsh : 0 < img.Bounds.Dy := by omega
  have hw0 : width ≠ 0 := by omega
  have hh0 : height ≠ 0 := by omega
  have hxo : x * img.Bounds.Dx ≤ maxInt := by
    have h1 : x * img.Bounds.Dx ≤ width * img.Bounds.Dx :=
      Int.mul_le_mul_of_nonneg_right (le_of_lt hx.2) (le_of_lt hsw)
    rw [Int.mul_comm width] at h1
    exact le_trans h1 hox
  have hyo : y * img.Bounds.Dy ≤ maxInt := by
    have h1 : y * img.Bounds.Dy ≤ height * img.Bounds.Dy :=
      Int.mul_le_mul_of_nonneg_right (le_of_lt hy.2) (le_of_lt hsh)
    rw [Int.mul_comm height] at h1
    exact le_trans h1 hoy
  have hsInt : isInt s := by
    obtain ⟨⟨_, hw1⟩, _, _, _⟩ := hfit
    simp only [isInt, minInt, maxInt]
    omega
  have htInt : isInt t := by
    obtain ⟨_, ⟨_, hh1⟩, _, _⟩ := hfit
    simp only [isInt, minInt, maxInt] at hh1 ⊢
    omega
  refine ⟨x, y, hx, hy, ?_, ?_, r, hok, ?_⟩
  · rw [intMul_exact _ _ (Int.mul_nonneg hx.1 (le_of_lt hsw)) hxo]
    simp [intDiv, hw0, hxs, wrapInt_of_isInt s hsInt]
  · rw [intMul_exact _ _ (Int.mul_nonneg hy.1 (le_of_lt hsh)) hyo]
    simp [intDiv, hh0, hyt, wrapInt_of_isInt t htInt]
  · rw [hat, sampled_exact img width height x y hwf hsw hsh hx hy hxo hyo, hxs, hyt]

/-- The upscale theorem at `solidLogo` resized to 3x2, source pixel `(1, 0)`. -/
theorem resizeImage_upscale_keeps_every_pixel_witness :
    solidLogo.Bounds.WellFormed ∧
    solidLogo.Bounds.Dx ≤ 3 ∧ solidLogo.Bounds.Dy ≤ 2 ∧
    ((0 : Int) ≤ 1 ∧ (1 : Int) < solidLogo.Bounds.Dx) ∧
    ((0 : Int) ≤ 0 ∧ (0 : Int) < solidLogo.Bounds.Dy) ∧
    targetFits 1000 3 2 ∧
    solidLogo.Bounds.Dx * 3 ≤ maxInt ∧ solidLogo.Bounds.Dy * 2 ≤ maxInt ∧
    ∃ x y, (0 ≤ x ∧ x < 3) ∧ (0 ≤ y ∧ y < 2) ∧
      intDiv (intMul x solidLogo.Bounds.Dx) 3 = .ok 1 ∧
      intDiv (intMul y solidLogo.Bounds.Dy) 2 = .ok 0 ∧
      ∃ r, resizeImage 1000 solidLogo 3 2 = .ok r ∧
        r.At x y =
          .rgba (rgbaModel (solidLogo.At (solidLogo.Bounds.Min.X + 1)
            (solidLogo.Bounds.Min.Y + 0))) :=
  ⟨by decide, by decide, by decide, by decide, by decide, by decide, by decide, by decide,
    resizeImage_upscale_keeps_every_pixel 1000 solidLogo 3 2 1 0 (by decide) (by decide)
      (by decide) (by decide) (by decide) (by decide) (by decide) (by decide)⟩

/-- C10 (counterexample). A source of width `2^32` and a target of the same width: the
source column `2^31` is `x*srcWidth/width` for no destination column `x` in
`[0, width)`, because `x * 2^32` wraps to a negative value from `x = 2^31` on. -/
theorem resizeImage_upscale_loses_column_on_wrap :
    longRow.Bounds.WellFormed ∧ longRow.Bounds.Dx = 4294967296 ∧ longRow.Bounds.Dy = 1 ∧
    ((0 : Int) ≤ 2147483648 ∧ (2147483648 : Int) < longRow.Bounds.Dx) ∧
    ¬ ∃ x : Int, (0 ≤ x ∧ x < 4294967296) ∧
      intDiv (intMul x longRow.Bounds.Dx) 4294967296 = .ok 2147483648 := by
  refine ⟨by decide, by decide, by decide, by decide, ?_⟩
  rintro ⟨x, ⟨hx0, hx1⟩, hdiv⟩
  have hdx : longRow.Bounds.Dx = 4294967296 := by decide
  rw [hdx] at hdiv
  simp only [intDiv, show ¬ ((4294967296 : Int) = 0) by decide, if_false, Except.ok.injEq]
    at hdiv
  by_cases hlt : x < 2147483648
  · have hm : intMul x 4294967296 = x * 4294967296 := by
      unfold intMul wrapInt
      omega
    rw [hm, tdiv_mul_self x 4294967296 (by decide)] at hdiv
    unfold wrapInt at hdiv
    omega
  · have hm : intMul x 4294967296 = (x - 4294967296) * 4294967296 := by
      unfold intMul wrapInt
      omega
    rw [hm, tdiv_mul_self (x - 4294967296) 4294967296 (by decide)] at hdiv
    unfold wrapInt at hdiv
    omega

/-! ## `generateOverlayQR` -/

theorem clampOverlaySizePct_eq (p : Int) : clampOverlaySizePct p = min (max p 10) 40 := by
  unfold clampOverlaySizePct
  simp only []
  split_ifs <;> omega

theorem clampQrSize_eq (q : Int) : clampQrSize q = max q 128 := by
  unfold clampQrSize
  split_ifs <;> omega

theorem clampOverlaySizePct_range (p : Int) :
    10 ≤ clampOverlaySizePct p ∧ clampOverlaySizePct p ≤ 40 := by
  rw [clampOverlaySizePct_eq]
  omega

theorem clampQrSize_ge (q : Int) : 128 ≤ clampQrSize q := by
  rw [clampQrSize_eq]
  omega

theorem clampOverlaySizePct_idem (p : Int) :
    clampOverlaySizePct (clampOverlaySizePct p) = clampOverlaySizePct p := by
  simp only [clampOverlaySizePct_eq]
  omega

theorem clampQrSize_idem (q : Int) : clampQrSize (clampQrSize q) = clampQrSize q := by
  simp only [clampQrSize_eq]
  omega

/-- The side of the overlay square, for clamped arguments: it is the floor of
`qrSize * overlaySizePct / 100`, and lies between 0 and `qrSize`. -/
theorem overlaySide_bounds (q p : Int) (hq : 128 ≤ q) (hp : 10 ≤ p ∧ p ≤ 40) :
    overlaySide q p = q * p / 100 ∧ 0 ≤ overlaySide q p ∧ overlaySide q p ≤ q := by
  have hqp : 0 ≤ q * p := Int.mul_nonneg (by omega) (by omega)
  have heq : overlaySide q p = q * p / 100 := Int.tdiv_eq_ediv hqp (by decide)
  refine ⟨heq, ?_, ?_⟩
  · rw [heq]
    exact Int.ediv_nonneg hqp (by decide)
  · rw [heq]
    have h1 : q * p ≤ q * 40 := Int.mul_le_mul_of_nonneg_left hp.2 (by omega)
    have h2 : q * p / 100 ≤ q * 40 / 100 := Int.ediv_le_ediv (by decide) h1
    omega

/-- The offset of the overlay square: half of what the square leaves free. -/
theorem overlayOffset_bounds (q side : Int) (h1 : side ≤ q) :
    overlayOffset q side = (q - side) / 2 ∧ 0 ≤ overlayOffset q side ∧
      overlayOffset q side + side ≤ q := by
  have heq : overlayOffset q side = (q - side) / 2 :=
    Int.tdiv_eq_ediv (by omega) (by decide)
  refine ⟨heq, ?_, ?_⟩ <;> rw [heq] <;> omega

theorem overlayRect_eq (q p : Int) (hq : 128 ≤ q) (hp : 10 ≤ p ∧ p ≤ 40) :
    overlayRect q p =
      ⟨⟨overlayOffset q (overlaySide q p), overlayOffset q (overlaySide q p)⟩,
       ⟨overlayOffset q (overlaySide q p) + overlaySide q p,
        overlayOffset q (overlaySide q p) + overlaySide q p⟩⟩ := by
  have h0 : 0 ≤ overlaySide q p := (overlaySide_bounds q p hq hp).2.1
  unfold overlayRect Rect
  have hno : ¬ overlayOffset q (overlaySide q p) >
      overlayOffset q (overlaySide q p) + overlaySide q p := by
    have := h0
    omega
  simp [hno]

theorem wrapError_ok {α : Type} (msg : String) (e : Except String α) (a : α)
    (h : wrapError msg e = .ok a) : e = .ok a := by
  cases e with
  | error err => simp [wrapError] at h
  | ok b => simpa [wrapError] using h

/-- What a call of `overlayRaster` that returns a raster has done. -/
theorem overlayRaster_ok {Q : Type} (env : Overlay Q) (url imagePath : String)
    (qrSize overlaySizePct : Int) (result : RGBAImage)
    (hras : overlayRaster env url imagePath qrSize overlaySizePct = .ok result) :
    ∃ qrc overlayFile overlayImg canvas resizedOverlay, env.New url = .ok qrc ∧
      env.Open imagePath = .ok overlayFile ∧ env.Decode overlayFile = .ok overlayImg ∧
      resizeImage env.Mem overlayImg
        (overlaySide (clampQrSize qrSize) (clampOverlaySizePct overlaySizePct))
        (overlaySide (clampQrSize qrSize) (clampOverlaySizePct overlaySizePct)) =
          .ok resizedOverlay ∧
      NewRGBA env.Mem (env.Image qrc (clampQrSize qrSize)).Bounds = .ok canvas ∧
      result = env.drawOn
          (env.drawOn canvas
            (env.Image qrc (clampQrSize qrSize)).Bounds (env.Image qrc (clampQrSize qrSize))
            ⟨0, 0⟩ .Src)
          (overlayRect (clampQrSize qrSize) (clampOverlaySizePct overlaySizePct))
          resizedOverlay.toImage ⟨0, 0⟩ .Over := by
  unfold overlayRaster at hras
  cases hnew : env.New url with
  | error err => simp [hnew, wrapError, bind, Except.bind] at hras
  | ok qrc =>
    cases hopen : env.Open imagePath with
    | error err => simp [hnew, hopen, wrapError, bind, Except.bind] at hras
    | ok overlayFile =>
      cases hdec : env.Decode overlayFile with
      | error err => simp [hnew, hopen, hdec, wrapError, bind, Except.bind] at hras
      | ok overlayImg =>
        cases hres : resizeImage env.Mem overlayImg
            (overlaySide (clampQrSize qrSize) (clampOverlaySizePct overlaySizePct))
            (overlaySide (clampQrSize qrSize) (clampOverlaySizePct overlaySizePct)) with
        | error err => simp [hnew, hopen, hdec, hres, wrapError, bind, Except.bind] at hras
        | ok resized =>
          cases hcanvas : NewRGBA env.Mem (env.Image qrc (clampQrSize qrSize)).Bounds with
          | error err =>
            simp [hnew, hopen, hdec, hres, hcanvas, wrapError, bind, Except.bind] at hras
          | ok canvas =>
            simp only [hnew, hopen, hdec, hres, hcanvas, wrapError, bind, Except.bind, pure,
              Except.pure, Except.ok.injEq] at hras
            exact ⟨qrc, overlayFile, overlayImg, canvas, resized, rfl, rfl, hdec, hres, hcanvas,
              hras.symm⟩

/-- The result of `image.NewRGBA(r)` has the rectangle `r`. -/
theorem NewRGBA_Rect (mem : Int) (r : Rectangle) (canvas : RGBAImage)
    (h : NewRGBA mem r = .ok canvas) : canvas.Rect = r := by
  unfold NewRGBA at h
  cases hlen : pixelBufferLength 4 r with
  | error err => simp [hlen, bind, Except.bind] at h
  | ok n =>
    simp only [hlen, bind, Except.bind] at h
    split at h
    · cases h
    · cases h
      rfl

/-- The raster that `overlayRaster` returns has the bounds of the image that the QR
encoder returned for the clamped size. -/
theorem overlayRaster_bounds {Q : Type} (env : Overlay Q) (url imagePath : String)
    (qrSize overlaySizePct : Int) (result : RGBAImage)
    (hras : overlayRaster env url imagePath qrSize overlaySizePct = .ok result) :
    ∃ qrc, env.New url = .ok qrc ∧
      result.Bounds = (env.Image qrc (max qrSize 128)).Bounds := by
  obtain ⟨qrc, _, _, canvas, _, hnew, _, _, _, hcanvas, hres⟩ :=
    overlayRaster_ok env url imagePath qrSize overlaySizePct result hras
  refine ⟨qrc, hnew, ?_⟩
  rw [hres, ← clampQrSize_eq]
  exact NewRGBA_Rect _ _ canvas hcanvas

/-- C4. `generateOverlayQR` works with `min (max overlaySizePct 10) 40` and
`max qrSize 128`: these are the values of the two clamps, a call returns what the
call with the clamped values returns (nothing is rejected for being out of range),
values in range are unchanged, and 50 becomes 128, 5 becomes 10, 90 becomes 40. -/
theorem generateOverlayQR_clamps {Q : Type} (env : Overlay Q) (url imagePath : String)
    (qrSize overlaySizePct : Int) :
    clampOverlaySizePct overlaySizePct = min (max overlaySizePct 10) 40 ∧
    clampQrSize qrSize = max qrSize 128 ∧
    generateOverlayQR env url imagePath qrSize overlaySizePct =
      generateOverlayQR env url imagePath (max qrSize 128) (min (max overlaySizePct 10) 40) ∧
    (10 ≤ overlaySizePct ∧ overlaySizePct ≤ 40 → clampOverlaySizePct overlaySizePct = overlaySizePct) ∧
    (128 ≤ qrSize → clampQrSize qrSize = qrSize) ∧
    clampQrSize 50 = 128 ∧ clampOverlaySizePct 5 = 10 ∧ clampOverlaySizePct 90 = 40 := by
  refine ⟨clampOverlaySizePct_eq _, clampQrSize_eq _, ?_, ?_, ?_, by decide, by decide, by decide⟩
  · rw [← clampOverlaySizePct_eq, ← clampQrSize_eq]
    unfold generateOverlayQR overlayRaster
    simp only [clampOverlaySizePct_idem, clampQrSize_idem]
  · intro h
    rw [clampOverlaySizePct_eq]
    omega
  · intro h
    rw [clampQrSize_eq]
    omega

/-- C5. For every requested `qrSize` and `overlaySizePct`, the rectangle
`overlayRect` computed from the clamped values is a square of side
`qrSize' * overlaySizePct' / 100` whose top-left corner is at
`((qrSize' - side) / 2, (qrSize' - side) / 2)`, whatever the overlay image is; for
size 512 and overlay-size 25 it is the 128x128 square at `(192, 192)`; for a
`qrSize` that is a value of `int`, `Dx()` and `Dy()` of the rectangle are the side;
and once the symbol and the overlay image are there and `image.NewRGBA` can
allocate the two rasters, the overlay is resized to that side in both directions
and drawn onto that rectangle, as it is in every call that returns a raster. -/
theorem overlayRect_square_centered {Q : Type} (env : Overlay Q) (url imagePath : String)
    (qrSize overlaySizePct : Int) :
    overlaySide (clampQrSize qrSize) (clampOverlaySizePct overlaySizePct) =
      clampQrSize qrSize * clampOverlaySizePct overlaySizePct / 100 ∧
    overlayOffset (clampQrSize qrSize)
        (overlaySide (clampQrSize qrSize) (clampOverlaySizePct overlaySizePct)) =
      (clampQrSize qrSize -
        overlaySide (clampQrSize qrSize) (clampOverlaySizePct overlaySizePct)) / 2 ∧
    (overlayRect (clampQrSize qrSize) (clampOverlaySizePct overlaySizePct)).Min =
      ⟨overlayOffset (clampQrSize qrSize)
          (overlaySide (clampQrSize qrSize) (clampOverlaySizePct overlaySizePct)),
        overlayOffset (clampQrSize qrSize)
          (overlaySide (clampQrSize qrSize) (clampOverlaySizePct overlaySizePct))⟩ ∧
    (overlayRect (clampQrSize qrSize) (clampOverlaySizePct overlaySizePct)).Max.X -
        (overlayRect (clampQrSize qrSize) (clampOverlaySizePct overlaySizePct)).Min.X =
      overlaySide (clampQrSize qrSize) (clampOverlaySizePct overlaySizePct) ∧
    (overlayRect (clampQrSize qrSize) (clampOverlaySizePct overlaySizePct)).Max.Y -
        (overlayRect (clampQrSize qrSize) (clampOverlaySizePct overlaySizePct)).Min.Y =
      overlaySide (clampQrSize qrSize) (clampOverlaySizePct overlaySizePct) ∧
    overlayRect (clampQrSize 512) (clampOverlaySizePct 25) = ⟨⟨192, 192⟩, ⟨192 + 128, 192 + 128⟩⟩ ∧
    (isInt qrSize →
      (overlayRect (clampQrSize qrSize) (clampOverlaySizePct overlaySizePct)).Dx =
        overlaySide (clampQrSize qrSize) (clampOverlaySizePct overlaySizePct) ∧
      (overlayRect (clampQrSize qrSize) (clampOverlaySizePct overlaySizePct)).Dy =
        overlaySide (clampQrSize qrSize) (clampOverlaySizePct overlaySizePct)) ∧
    (∀ qrc overlayFile overlayImg canvas, env.New url = .ok qrc →
      env.Open imagePath = .ok overlayFile → env.Decode overlayFile = .ok overlayImg →
      targetFits env.Mem
        (overlaySide (clampQrSize qrSize) (clampOverlaySizePct overlaySizePct))
        (overlaySide (clampQrSize qrSize) (clampOverlaySizePct overlaySizePct)) →
      NewRGBA env.Mem (env.Image qrc (clampQrSize qrSize)).Bounds = .ok canvas →
      ∃ resizedOverlay,
        resizeImage env.Mem overlayImg
          (overlaySide (clampQrSize qrSize) (clampOverlaySizePct overlaySizePct))
          (overlaySide (clampQrSize qrSize) (clampOverlaySizePct overlaySizePct)) =
            .ok resizedOverlay ∧
        resizedOverlay.Bounds.Dx =
          overlaySide (clampQrSize qrSize) (clampOverlaySizePct overlaySizePct) ∧
        resizedOverlay.Bounds.Dy =
          overlaySide (clampQrSize qrSize) (clampOverlaySizePct overlaySizePct) ∧
        overlayRaster env url imagePath qrSize overlaySizePct =
          .ok (env.drawOn
            (env.drawOn canvas
              (env.Image qrc (clampQrSize qrSize)).Bounds (env.Image qrc (clampQrSize qrSize))
              ⟨0, 0⟩ .Src)
            (overlayRect (clampQrSize qrSize) (clampOverlaySizePct overlaySizePct))
            resizedOverlay.toImage ⟨0, 0⟩ .Over)) ∧
    (∀ result, overlayRaster env url imagePath qrSize overlaySizePct = .ok result →
      ∃ qrc overlayFile overlayImg canvas resizedOverlay, env.New url = .ok qrc ∧
        env.Open imagePath = .ok overlayFile ∧ env.Decode overlayFile = .ok overlayImg ∧
        resizeImage env.Mem overlayImg
          (overlaySide (clampQrSize qrSize) (clampOverlaySizePct overlaySizePct))
          (overlaySide (clampQrSize qrSize) (clampOverlaySizePct overlaySizePct)) =
            .ok resizedOverlay ∧
        NewRGBA env.Mem (env.Image qrc (clampQrSize qrSize)).Bounds = .ok canvas ∧
        result = env.drawOn
            (env.drawOn canvas
              (env.Image qrc (clampQrSize qrSize)).Bounds (env.Image qrc (clampQrSize qrSize))
              ⟨0, 0⟩ .Src)
            (overlayRect (clampQrSize qrSize) (clampOverlaySizePct overlaySizePct))
            resizedOverlay.toImage ⟨0, 0⟩ .Over) := by
  have hq := clampQrSize_ge qrSize
  have hp := clampOverlaySizePct_range overlaySizePct
  obtain ⟨hside, h0, h1⟩ := overlaySide_bounds _ _ hq hp
  obtain ⟨hoff, hoff0, hoff1⟩ := overlayOffset_bounds _ _ h1
  have hrect := overlayRect_eq _ _ hq hp
  refine ⟨hside, hoff, ?_, ?_, ?_, by decide, ?_, ?_, ?_⟩
  · rw [hrect]
  · rw [hrect]
    simp
  · rw [hrect]
    simp
  · intro hint
    have hqi : clampQrSize qrSize ≤ maxInt := by
      rw [clampQrSize_eq]
      simp only [isInt, minInt, maxInt] at hint ⊢
      omega
    have hw : wrapInt (overlaySide (clampQrSize qrSize) (clampOverlaySizePct overlaySizePct)) =
        overlaySide (clampQrSize qrSize) (clampOverlaySizePct overlaySizePct) := by
      apply wrapInt_of_isInt
      simp only [isInt, minInt, maxInt] at hqi ⊢
      omega
    have hsub : ∀ a b : Int, a + b - a = b := by
      intro a b
      omega
    rw [hrect]
    simp only [Rectangle.Dx, Rectangle.Dy, intSub, hsub, hw, and_self]
  · intro qrc overlayFile overlayImg canvas hnew hopen hdec hfit hcanvas
    obtain ⟨resized, hres, _, hdx, hdy, _⟩ := resizeImage_dims env.Mem overlayImg _ _ hfit
    refine ⟨resized, hres, hdx, hdy, ?_⟩
    unfold overlayRaster
    simp only [hnew, hopen, hdec, wrapError, bind, Except.bind, hres, hcanvas, pure, Except.pure]
  · intro result hras
    exact overlayRaster_ok env url imagePath qrSize overlaySizePct result hras

/-- C6. For every requested `qrSize` and `overlaySizePct`, the overlay rectangle
computed from the clamped values lies inside the `qrSize' x qrSize'` symbol:
`0 ≤ offset`, `offset + side ≤ qrSize'` on both axes, and every point of
`overlayRect` is a point of `(0, 0)-(qrSize', qrSize')`. -/
theorem overlayRect_within_symbol (qrSize overlaySizePct : Int) :
    0 ≤ (overlayRect (clampQrSize qrSize) (clampOverlaySizePct overlaySizePct)).Min.X ∧
    0 ≤ (overlayRect (clampQrSize qrSize) (clampOverlaySizePct overlaySizePct)).Min.Y ∧
    (overlayRect (clampQrSize qrSize) (clampOverlaySizePct overlaySizePct)).Max.X ≤
      clampQrSize qrSize ∧
    (overlayRect (clampQrSize qrSize) (clampOverlaySizePct overlaySizePct)).Max.Y ≤
      clampQrSize qrSize ∧
    0 ≤ overlayOffset (clampQrSize qrSize)
      (overlaySide (clampQrSize qrSize) (clampOverlaySizePct overlaySizePct)) ∧
    overlayOffset (clampQrSize qrSize)
        (overlaySide (clampQrSize qrSize) (clampOverlaySizePct overlaySizePct)) +
      overlaySide (clampQrSize qrSize) (clampOverlaySizePct overlaySizePct) ≤ clampQrSize qrSize ∧
    ∀ x y,
      (Point.mk x y).In (overlayRect (clampQrSize qrSize) (clampOverlaySizePct overlaySizePct)) =
          true →
        (Point.mk x y).In (Rect 0 0 (clampQrSize qrSize) (clampQrSize qrSize)) = true := by
  have hq := clampQrSize_ge qrSize
  have hp := clampOverlaySizePct_range overlaySizePct
  obtain ⟨_, h0, h1⟩ := overlaySide_bounds _ _ hq hp
  obtain ⟨_, hoff0, hoff1⟩ := overlayOffset_bounds _ _ h1
  have hrect := overlayRect_eq _ _ hq hp
  rw [hrect, Rect_nonneg _ _ (by omega) (by omega)]
  refine ⟨hoff0, hoff0, hoff1, hoff1, hoff0, hoff1, ?_⟩
  intro x y hin
  rw [In_iff] at hin ⊢
  simp only at hin ⊢
  omega

/-- C7 (the failing input). A 600-byte payload at size 128 and overlay-size 25, with
a QR encoder that renders the 133-module symbol at one pixel per module: the
raster handed to the PNG encoder is 133x133, not `max qrSize 128 = 128`, and the
overlay, placed from the requested size, is the square `(48, 48)-(80, 80)`, which
leaves 48 pixels on the left and top and 53 on the right and bottom. -/
theorem generateOverlayQR_long_payload_output_size :
    longPayload.length = 600 ∧ max (128 : Int) 128 = 128 ∧
    boundsOf (overlayRaster longPayloadOverlay longPayload "logo.png" 128 25) =
      some ⟨⟨0, 0⟩, ⟨133, 133⟩⟩ ∧
    (generateOverlayQR longPayloadOverlay longPayload "logo.png" 128 25).toOption =
      some [133, 133] ∧
    overlayRect (clampQrSize 128) (clampOverlaySizePct 25) = ⟨⟨48, 48⟩, ⟨80, 80⟩⟩ ∧
    (48 : Int) - 0 = 48 ∧ (133 : Int) - 80 = 53 := by
  refine ⟨List.length_replicate 600 'a', by decide, by rfl, by rfl, by decide, by decide, by decide⟩

/-! ## `main`, embed mode -/

/-- C8 (amended). In embed mode, whenever the artistic-encoding collaborator
returns `nil`, the program prints the error and the hint to try a higher version on
the error stream, exits with status 1 and writes no output file; a result that is
not `nil`, an empty one included, is handed to the file write and is not reported
as a failure of the encoder. -/
theorem main_embed_nil_is_capacity_error {Q : Type} (w : World Q) (f : Flags) (imgData : Bytes)
    (himage : f.imagePath ≠ "") (hmode : f.overlay = false)
    (hread : w.ReadFile f.imagePath = .ok imgData) :
    (w.Encode f.url imgData (seedVal f.seed w.Now) f.version f.scale f.mask f.dx f.dy
        f.randControl f.dither f.onlyData f.saveControl = none →
      main w f =
        { stdout := [],
          stderr := ["Error: failed to generate QR code\n",
                     "Tip: Try a higher version (-version 7 or 8) for longer URLs\n"],
          written := [], exit := 1 }) ∧
    (∀ qrData, w.Encode f.url imgData (seedVal f.seed w.Now) f.version f.scale f.mask f.dx f.dy
        f.randControl f.dither f.onlyData f.saveControl = some qrData →
      (main w f).written = [(f.output, qrData)] ∧
      (((main w f).stderr = [] ∧ (main w f).exit = 0) ∨
        ∃ err, w.WriteFile f.output qrData = .error err ∧
          (main w f).stderr = ["Error writing output file: " ++ err ++ "\n"] ∧
          (main w f).exit = 1)) := by
  unfold main
  rw [if_neg himage, hmode]
  simp only [Bool.false_eq_true, if_false, hread]
  constructor
  · intro hnil
    rw [hnil]
  · intro qrData hsome
    rw [hsome]
    simp only [saveOutput]
    cases hwrite : w.WriteFile f.output qrData with
    | error err => simp
    | ok u => simp

/-- The failure theorem in the sample world whose encoder returns `nil`. -/
theorem main_embed_nil_is_capacity_error_witness :
    sampleFlags.imagePath ≠ "" ∧ sampleFlags.overlay = false ∧
    nilResultWorld.ReadFile sampleFlags.imagePath = .ok [137, 80, 78, 71] ∧
    (nilResultWorld.Encode sampleFlags.url [137, 80, 78, 71]
        (seedVal sampleFlags.seed nilResultWorld.Now) sampleFlags.version sampleFlags.scale
        sampleFlags.mask sampleFlags.dx sampleFlags.dy sampleFlags.randControl sampleFlags.dither
        sampleFlags.onlyData sampleFlags.saveControl = none →
      main nilResultWorld sampleFlags =
        { stdout := [],
          stderr := ["Error: failed to generate QR code\n",
                     "Tip: Try a higher version (-version 7 or 8) for longer URLs\n"],
          written := [], exit := 1 }) ∧
    (∀ qrData, nilResultWorld.Encode sampleFlags.url [137, 80, 78, 71]
        (seedVal sampleFlags.seed nilResultWorld.Now) sampleFlags.version sampleFlags.scale
        sampleFlags.mask sampleFlags.dx sampleFlags.dy sampleFlags.randControl sampleFlags.dither
        sampleFlags.onlyData sampleFlags.saveControl = some qrData →
      (main nilResultWorld sampleFlags).written = [(sampleFlags.output, qrData)] ∧
      (((main nilResultWorld sampleFlags).stderr = [] ∧
          (main nilResultWorld sampleFlags).exit = 0) ∨
        ∃ err, nilResultWorld.WriteFile sampleFlags.output qrData = .error err ∧
          (main nilResultWorld sampleFlags).stderr = ["Error writing output file: " ++ err ++ "\n"] ∧
          (main nilResultWorld sampleFlags).exit = 1)) :=
  ⟨by decide, rfl, rfl,
    main_embed_nil_is_capacity_error nilResultWorld sampleFlags [137, 80, 78, 71] (by decide) rfl
      rfl⟩

/-- C8 (counterexample). In embed mode, with an artistic encoder that returns an
empty slice that is not `nil`, the program reports success: nothing on the error
stream, the empty result written to the output file, exit status 0. -/
theorem main_embed_empty_result_is_written :
    sampleFlags.imagePath ≠ "" ∧ sampleFlags.overlay = false ∧
    emptyResultWorld.Encode sampleFlags.url [137, 80, 78, 71]
      (seedVal sampleFlags.seed emptyResultWorld.Now) sampleFlags.version sampleFlags.scale
      sampleFlags.mask sampleFlags.dx sampleFlags.dy sampleFlags.randControl sampleFlags.dither
      sampleFlags.onlyData sampleFlags.saveControl = some [] ∧
    main emptyResultWorld sampleFlags =
      { stdout := ["QR code generated: qrcode.png\n", "  URL: https://example.com\n",
                   "  Mode: embed, Version: 6, Scale: 8\n"],
        stderr := [], written := [("qrcode.png", [])], exit := 0 } := by
  decide

/-- C9. In embed mode with an explicit non-zero seed, the run of `main` is the
same whatever the clock reads: the seed handed to the artistic encoder is the given
seed, the time-derived value being used only for seed 0, and what the encoder
returns for the given seed is what is written. -/
theorem main_embed_reproducible {Q : Type} (w : World Q) (f : Flags) (t1 t2 : Int)
    (hmode : f.overlay = false) (hseed : f.seed ≠ 0) :
    main { w with Now := t1 } f = main { w with Now := t2 } f ∧
    seedVal f.seed t1 = f.seed ∧ seedVal f.seed t2 = f.seed ∧
    seedVal 0 t1 = t1 ∧ seedVal 0 t2 = t2 ∧
    (∀ imgData qrData, f.imagePath ≠ "" → w.ReadFile f.imagePath = .ok imgData →
      w.Encode f.url imgData f.seed f.version f.scale f.mask f.dx f.dy f.randControl f.dither
        f.onlyData f.saveControl = some qrData →
      (main { w with Now := t1 } f).written = [(f.output, qrData)] ∧
      (main { w with Now := t2 } f).written = [(f.output, qrData)]) := by
  have hs : ∀ t, seedVal f.seed t = f.seed := by
    intro t
    unfold seedVal
    rw [if_neg hseed]
  have hmain : ∀ t, main { w with Now := t } f = main { w with Now := f.seed } f := by
    intro t
    unfold main saveOutput
    simp only [hs]
  have hwritten : ∀ t imgData qrData, f.imagePath ≠ "" → w.ReadFile f.imagePath = .ok imgData →
      w.Encode f.url imgData f.seed f.version f.scale f.mask f.dx f.dy f.randControl f.dither
        f.onlyData f.saveControl = some qrData →
      (main { w with Now := t } f).written = [(f.output, qrData)] := by
    intro t imgData qrData himage hread henc
    unfold main
    rw [if_neg himage, hmode]
    simp only [Bool.false_eq_true, if_false, hread, hs, henc, saveOutput]
    cases hwrite : w.WriteFile f.output qrData with
    | error err => rfl
    | ok u => rfl
  refine ⟨(hmain t1).trans (hmain t2).symm, hs t1, hs t2, by simp [seedVal], by simp [seedVal], ?_⟩
  intro imgData qrData himage hread henc
  exact ⟨hwritten t1 imgData qrData himage hread henc, hwritten t2 imgData qrData himage hread henc⟩

/-- The reproducibility theorem in the sample world, clock values 1 and 2, seed 7. -/
theorem main_embed_reproducible_witness :
    sampleFlags.overlay = false ∧ sampleFlags.seed ≠ 0 ∧
    main { sampleWorld with Now := 1 } sampleFlags = main { sampleWorld with Now := 2 } sampleFlags ∧
    seedVal sampleFlags.seed 1 = sampleFlags.seed ∧ seedVal sampleFlags.seed 2 = sampleFlags.seed ∧
    seedVal 0 1 = 1 ∧ seedVal 0 2 = 2 ∧
    (∀ imgData qrData, sampleFlags.imagePath ≠ "" →
      sampleWorld.ReadFile sampleFlags.imagePath = .ok imgData →
      sampleWorld.Encode sampleFlags.url imgData sampleFlags.seed sampleFlags.version
        sampleFlags.scale sampleFlags.mask sampleFlags.dx sampleFlags.dy sampleFlags.randControl
        sampleFlags.dither sampleFlags.onlyData sampleFlags.saveControl = some qrData →
      (main { sampleWorld with Now := 1 } sampleFlags).written = [(sampleFlags.output, qrData)] ∧
      (main { sampleWorld with Now := 2 } sampleFlags).written =
        [(sampleFlags.output, qrData)]) :=
  ⟨rfl, by decide, main_embed_reproducible sampleWorld sampleFlags 1 2 rfl (by decide)⟩

end QRMaker
